import Mathlib

/-!
Verification development for the narrative consistency engine
(backend/core/state_manager.py, backend/gate/consistency_gate.py,
backend/models/state.py, backend/models/event.py).

The Python code is embedded shallowly:

* Python `dict`s (insertion ordered, unique keys) become association lists
  (`KVList`); `d[k] = v` is `kvSet` (in-place update, else append), `k in d`
  is `kvContains`, `d.get(k)` is `kvLookup`.
* Dynamic update values (`Dict[str, Any]`) become the inductive `Val`.
  The embedding restricts update values to the declared types of the pydantic
  fields: a `setattr` whose value does not fit the target field is modelled as
  an error, while pydantic v2 raises only for unknown field names (it stores
  ill-typed values untyped).  None of the verified claims depends on ill-typed
  stored values.  Free-form `metadata` mappings are flattened to
  string-to-string mappings.
* Python truthiness is modelled explicitly: empty strings / lists / dicts and
  `None` are falsy.
* Functions that can raise (`setattr` of an unknown pydantic field, pydantic
  model validators at construction) return `Except String`.
* Wall-clock fields (`updated_at`, `created_at`) are omitted: no verified
  claim mentions them.
-/

deriving instance DecidableEq for Except

/-- Dynamic value of a Python update dictionary. -/
inductive Val where
  | vstr (s : String)
  | vbool (b : Bool)
  | vnone
  | vlist (l : List String)
  | vmeta (m : List (String × String))
deriving Repr, DecidableEq

/-- Association list standing for a Python `dict` (insertion ordered). -/
abbrev KVList (κ α : Type) := List (κ × α)

/-- First binding of a key (`d.get(k)` / `d[k]`). -/
def kvLookup [BEq κ] : KVList κ α → κ → Option α
  | [], _ => none
  | (k, v) :: r, key => if k == key then some v else kvLookup r key

/-- Key membership (`k in d`). -/
def kvContains [BEq κ] (l : KVList κ α) (key : κ) : Bool :=
  (kvLookup l key).isSome

/-- `d[k] = v`: replace in place if the key exists, else append. -/
def kvSet [BEq κ] : KVList κ α → κ → α → KVList κ α
  | [], key, v => [(key, v)]
  | (k, w) :: r, key, v => if k == key then (k, v) :: r else (k, w) :: kvSet r key v

/-- Update the first binding of an existing key; no-op if absent. -/
def kvModify [BEq κ] : KVList κ α → κ → (α → α) → KVList κ α
  | [], _, _ => []
  | (k, w) :: r, key, f => if k == key then (k, f w) :: r else (k, w) :: kvModify r key f

/-- Python `d1.update(d2)` (shallow merge). -/
def kvMerge [BEq κ] (d1 d2 : KVList κ α) : KVList κ α :=
  d2.foldl (fun acc kv => kvSet acc kv.1 kv.2) d1

/-- Truthiness of an optional string (`if x:` with `x : Optional[str]`). -/
def optTruthy : Option String → Bool
  | some s => s != ""
  | none => false

/-- Truthiness of a dynamic value. -/
def Val.truthy : Val → Bool
  | .vstr s => s != ""
  | .vbool b => b
  | .vnone => false
  | .vlist l => !l.isEmpty
  | .vmeta m => !m.isEmpty

/-- Python view of an `Optional[str]` field used in `==`/`!=` against a value. -/
def optStrToVal : Option String → Val
  | some s => .vstr s
  | none => .vnone

/-- Contiguous-sublist test on character lists. -/
def charsContain (hay needle : List Char) : Bool :=
  match hay with
  | [] => needle.isEmpty
  | _ :: t => needle.isPrefixOf hay || charsContain t needle

/-- Python substring test `needle in hay` on strings. -/
def strContainsB (hay needle : String) : Bool :=
  charsContain hay.toList needle.toList

/-- Python `x in m` for a dynamic value `m` (dict keys / list elements /
substring).  `x in None` and `x in bool` raise `TypeError` in Python; they are
modelled as `false` (no verified claim exercises them). -/
def valHasKey (m : Val) (key : String) : Bool :=
  match m with
  | .vmeta d => kvContains d key
  | .vlist l => l.contains key
  | .vstr s => strContainsB s key
  | .vbool _ => false
  | .vnone => false

/-- Plain `str(x)` rendering used inside f-string messages. -/
def valPlain : Val → String
  | .vstr s => s
  | .vbool b => if b then "True" else "False"
  | .vnone => "None"
  | .vlist l => "[" ++ String.intercalate ", " (l.map (fun s => "\x27" ++ s ++ "\x27")) ++ "]"
  | .vmeta _ => "\x7b...\x7d"

/-- Plain rendering of an `Optional[str]` inside an f-string. -/
def optPlain : Option String → String
  | some s => s
  | none => "None"

/-- Rendering of a Python `set` of values inside an f-string.  CPython's set
iteration order is unspecified; the embedding uses first-insertion order. -/
def pySetRepr (l : List Val) : String :=
  "\x7b" ++ String.intercalate ", " (l.map (fun v =>
    match v with
    | .vstr s => "\x27" ++ s ++ "\x27"
    | w => valPlain w)) ++ "\x7d"

/-- Add to a list-as-set (Python `set.add`), keeping first-insertion order. -/
def listSetAdd (l : List Val) (v : Val) : List Val :=
  if l.contains v then l else l ++ [v]

-- ==================== Data model (backend/models/state.py) ====================

/-- `MetaInfo` (without the wall-clock `updated_at`). -/
structure MetaInfo where
  story_id : String
  canon_version : String
  turn : Nat
  last_event_id : Option String
deriving Repr, DecidableEq

structure TimeAnchor where
  label : String
  order : Nat
deriving Repr, DecidableEq

structure TimeState where
  calendar : String
  anchor : TimeAnchor
deriving Repr, DecidableEq

structure PlayerState where
  id : String
  name : String
  location_id : String
  party : List String
  inventory : List String
deriving Repr, DecidableEq

structure Character where
  id : String
  name : String
  location_id : String
  alive : Bool
  faction_id : Option String
  metadata : List (String × String)
deriving Repr, DecidableEq

structure Item where
  id : String
  name : String
  owner_id : Option String
  location_id : Option String
  unique : Bool
  metadata : List (String × String)
deriving Repr, DecidableEq

structure Location where
  id : String
  name : String
  parent_location_id : Option String
  metadata : List (String × String)
deriving Repr, DecidableEq

structure Faction where
  id : String
  name : String
  leader_id : Option String
  members : List String
  metadata : List (String × String)
deriving Repr, DecidableEq

structure Entities where
  characters : KVList String Character
  items : KVList String Item
  locations : KVList String Location
  factions : KVList String Faction
deriving Repr, DecidableEq

inductive QStatus where
  | active
  | completed
  | failed
deriving Repr, DecidableEq

structure Quest where
  id : String
  title : String
  status : QStatus
  prerequisites : List String
  metadata : List (String × String)
deriving Repr, DecidableEq

structure QuestState where
  active : List Quest
  completed : List Quest
deriving Repr, DecidableEq

inductive CType where
  | immutable_event
  | unique_item
  | entity_state
  | relationship
deriving Repr, DecidableEq

structure Constraint where
  id : String
  ctype : CType
  description : String
  entity_id : Option String
  value : KVList String Val
deriving Repr, DecidableEq

structure Constraints where
  unique_item_ids : List String
  immutable_events : List String
  constraints : List Constraint
deriving Repr, DecidableEq

structure CanonicalState where
  meta : MetaInfo
  time : TimeState
  player : PlayerState
  entities : Entities
  quest : QuestState
  constraints : Constraints
deriving Repr, DecidableEq

-- ==================== Patches and events (state.py / event.py) ====================

inductive EType where
  | character
  | item
  | location
  | faction
deriving Repr, DecidableEq

structure EntityUpdate where
  entity_type : EType
  entity_id : String
  updates : KVList String Val
deriving Repr, DecidableEq

structure TimeUpdate where
  calendar : Option String
  anchor : Option TimeAnchor
deriving Repr, DecidableEq

structure QuestUpdate where
  quest_id : String
  status : QStatus
  metadata : Option (List (String × String))
deriving Repr, DecidableEq

structure StatePatch where
  entity_updates : KVList String EntityUpdate
  time_update : Option TimeUpdate
  quest_updates : Option (List QuestUpdate)
  constraint_additions : List Constraint
  player_updates : Option (KVList String Val)
deriving Repr, DecidableEq

inductive EventType where
  | OWNERSHIP_CHANGE
  | DEATH
  | REVIVAL
  | TRAVEL
  | FACTION_CHANGE
  | QUEST_START
  | QUEST_COMPLETE
  | QUEST_FAIL
  | ITEM_CREATE
  | ITEM_DESTROY
  | RELATIONSHIP_CHANGE
  | TIME_ADVANCE
  | OTHER
deriving Repr, DecidableEq

structure EventTime where
  label : String
  order : Nat
deriving Repr, DecidableEq

structure EventLocation where
  location_id : String
deriving Repr, DecidableEq

structure EventParticipants where
  actors : List String
  witnesses : List String
deriving Repr, DecidableEq

/-- `Event` (without `evidence`/`created_at`, which no claim mentions). -/
structure Event where
  event_id : String
  turn : Nat
  time : EventTime
  where_ : EventLocation
  who : EventParticipants
  type : EventType
  summary : String
  payload : KVList String Val
  state_patch : StatePatch
deriving Repr, DecidableEq

/-- `Event.validate_traceability` (event.py): the boolean `has_updates`; the
validator accepts the event exactly when it is `true`. -/
def validate_traceability (p : StatePatch) : Bool :=
  !p.entity_updates.isEmpty ||
  p.time_update.isSome ||
  p.quest_updates.isSome ||
  !p.constraint_additions.isEmpty ||
  p.player_updates.isSome

-- ==================== setattr semantics (pydantic v2) ====================

/-- The `for key, value in updates.items(): setattr(obj, key, value)` loop,
stopping at the first raising assignment. -/
def setattrFold (f : α → String → Val → Except String α) :
    α → KVList String Val → Except String α
  | a, [] => .ok a
  | a, kv :: r =>
    match f a kv.1 kv.2 with
    | .ok a' => setattrFold f a' r
    | .error m => .error m

/-- `setattr` on a `Character`; unknown field names raise in pydantic v2. -/
def setattrChar (c : Character) (key : String) (v : Val) : Except String Character :=
  if key == "id" then
    match v with
    | .vstr s => .ok { c with id := s }
    | _ => .error "Character.id type"
  else if key == "name" then
    match v with
    | .vstr s => .ok { c with name := s }
    | _ => .error "Character.name type"
  else if key == "location_id" then
    match v with
    | .vstr s => .ok { c with location_id := s }
    | _ => .error "Character.location_id type"
  else if key == "alive" then
    match v with
    | .vbool b => .ok { c with alive := b }
    | _ => .error "Character.alive type"
  else if key == "faction_id" then
    match v with
    | .vstr s => .ok { c with faction_id := some s }
    | .vnone => .ok { c with faction_id := none }
    | _ => .error "Character.faction_id type"
  else if key == "metadata" then
    match v with
    | .vmeta m => .ok { c with metadata := m }
    | _ => .error "Character.metadata type"
  else .error ("Character object has no field " ++ key)

/-- `setattr` on an `Item`. -/
def setattrItem (it : Item) (key : String) (v : Val) : Except String Item :=
  if key == "id" then
    match v with
    | .vstr s => .ok { it with id := s }
    | _ => .error "Item.id type"
  else if key == "name" then
    match v with
    | .vstr s => .ok { it with name := s }
    | _ => .error "Item.name type"
  else if key == "owner_id" then
    match v with
    | .vstr s => .ok { it with owner_id := some s }
    | .vnone => .ok { it with owner_id := none }
    | _ => .error "Item.owner_id type"
  else if key == "location_id" then
    match v with
    | .vstr s => .ok { it with location_id := some s }
    | .vnone => .ok { it with location_id := none }
    | _ => .error "Item.location_id type"
  else if key == "unique" then
    match v with
    | .vbool b => .ok { it with unique := b }
    | _ => .error "Item.unique type"
  else if key == "metadata" then
    match v with
    | .vmeta m => .ok { it with metadata := m }
    | _ => .error "Item.metadata type"
  else .error ("Item object has no field " ++ key)

/-- `setattr` on a `Location`. -/
def setattrLoc (lc : Location) (key : String) (v : Val) : Except String Location :=
  if key == "id" then
    match v with
    | .vstr s => .ok { lc with id := s }
    | _ => .error "Location.id type"
  else if key == "name" then
    match v with
    | .vstr s => .ok { lc with name := s }
    | _ => .error "Location.name type"
  else if key == "parent_location_id" then
    match v with
    | .vstr s => .ok { lc with parent_location_id := some s }
    | .vnone => .ok { lc with parent_location_id := none }
    | _ => .error "Location.parent_location_id type"
  else if key == "metadata" then
    match v with
    | .vmeta m => .ok { lc with metadata := m }
    | _ => .error "Location.metadata type"
  else .error ("Location object has no field " ++ key)

/-- `setattr` on a `Faction`. -/
def setattrFaction (f : Faction) (key : String) (v : Val) : Except String Faction :=
  if key == "id" then
    match v with
    | .vstr s => .ok { f with id := s }
    | _ => .error "Faction.id type"
  else if key == "name" then
    match v with
    | .vstr s => .ok { f with name := s }
    | _ => .error "Faction.name type"
  else if key == "leader_id" then
    match v with
    | .vstr s => .ok { f with leader_id := some s }
    | .vnone => .ok { f with leader_id := none }
    | _ => .error "Faction.leader_id type"
  else if key == "members" then
    match v with
    | .vlist l => .ok { f with members := l }
    | _ => .error "Faction.members type"
  else if key == "metadata" then
    match v with
    | .vmeta m => .ok { f with metadata := m }
    | _ => .error "Faction.metadata type"
  else .error ("Faction object has no field " ++ key)

/-- `setattr` on the `PlayerState` (the fall-through branch of
`player_updates` handling, and the gate projection's player handling). -/
def setattrPlayer (p : PlayerState) (key : String) (v : Val) : Except String PlayerState :=
  if key == "id" then
    match v with
    | .vstr s => .ok { p with id := s }
    | _ => .error "PlayerState.id type"
  else if key == "name" then
    match v with
    | .vstr s => .ok { p with name := s }
    | _ => .error "PlayerState.name type"
  else if key == "location_id" then
    match v with
    | .vstr s => .ok { p with location_id := s }
    | _ => .error "PlayerState.location_id type"
  else if key == "party" then
    match v with
    | .vlist l => .ok { p with party := l }
    | _ => .error "PlayerState.party type"
  else if key == "inventory" then
    match v with
    | .vlist l => .ok { p with inventory := l }
    | _ => .error "PlayerState.inventory type"
  else .error ("PlayerState object has no field " ++ key)

-- ==================== Patch applier (backend/core/state_manager.py) ====================

/-- Read an optional-string creation argument (`updates.get(k)`). -/
def getOptStrArg (u : KVList String Val) (key : String) : Except String (Option String) :=
  match kvLookup u key with
  | none => .ok none
  | some (.vstr s) => .ok (some s)
  | some .vnone => .ok none
  | some _ => .error ("bad value for " ++ key)

/-- Read a boolean creation argument with default (`updates.get(k, False)`). -/
def getBoolArg (u : KVList String Val) (key : String) : Except String Bool :=
  match kvLookup u key with
  | none => .ok false
  | some (.vbool b) => .ok b
  | some _ => .error ("bad value for " ++ key)

/-- Read a metadata creation argument (`updates.get("metadata", {})`). -/
def getMetaArg (u : KVList String Val) : Except String (List (String × String)) :=
  match kvLookup u "metadata" with
  | none => .ok []
  | some (.vmeta m) => .ok m
  | some _ => .error "bad value for metadata"

/-- Read a string-list creation argument (`updates.get("members", [])`). -/
def getListArg (u : KVList String Val) (key : String) : Except String (List String) :=
  match kvLookup u key with
  | none => .ok []
  | some (.vlist l) => .ok l
  | some _ => .error ("bad value for " ++ key)

/-- One `(entity_id, entity_update)` step of the `entity_updates` loop in
`apply_state_patch`.  Existing entities get field-by-field `setattr`; missing
items/locations/factions are created only when `"name"` is present in the
updates (pydantic validators for `Item` run at construction); missing
characters are silently skipped. -/
def apply_entity_update (s : CanonicalState) (entity_id : String)
    (eu : EntityUpdate) : Except String CanonicalState :=
  match eu.entity_type with
  | .character =>
    match kvLookup s.entities.characters entity_id with
    | some c => do
      let c' ← setattrFold setattrChar c eu.updates
      .ok { s with entities := { s.entities with
              characters := kvSet s.entities.characters entity_id c' } }
    | none => .ok s
  | .item =>
    match kvLookup s.entities.items entity_id with
    | some it => do
      let it' ← setattrFold setattrItem it eu.updates
      .ok { s with entities := { s.entities with
              items := kvSet s.entities.items entity_id it' } }
    | none =>
      if kvContains eu.updates "name" then do
        let nm ← match kvLookup eu.updates "name" with
          | some (.vstr s) => Except.ok s
          | _ => Except.error "Item.name type"
        let owner ← getOptStrArg eu.updates "owner_id"
        let loc ← getOptStrArg eu.updates "location_id"
        let uniq ← getBoolArg eu.updates "unique"
        let meta ← getMetaArg eu.updates
        if uniq && owner.isNone then
          .error ("Unique item " ++ entity_id ++ " must have owner_id")
        else if owner.isNone && loc.isNone then
          .error ("Item " ++ entity_id ++ " must have either owner_id or location_id")
        else
          .ok { s with entities := { s.entities with
                  items := kvSet s.entities.items entity_id
                    { id := entity_id, name := nm, owner_id := owner,
                      location_id := loc, unique := uniq, metadata := meta } } }
      else .ok s
  | .location =>
    match kvLookup s.entities.locations entity_id with
    | some lc => do
      let lc' ← setattrFold setattrLoc lc eu.updates
      .ok { s with entities := { s.entities with
              locations := kvSet s.entities.locations entity_id lc' } }
    | none =>
      if kvContains eu.updates "name" then do
        let nm ← match kvLookup eu.updates "name" with
          | some (.vstr s) => Except.ok s
          | _ => Except.error "Location.name type"
        let parent ← getOptStrArg eu.updates "parent_location_id"
        let meta ← getMetaArg eu.updates
        .ok { s with entities := { s.entities with
                locations := kvSet s.entities.locations entity_id
                  { id := entity_id, name := nm, parent_location_id := parent,
                    metadata := meta } } }
      else .ok s
  | .faction =>
    match kvLookup s.entities.factions entity_id with
    | some f => do
      let f' ← setattrFold setattrFaction f eu.updates
      .ok { s with entities := { s.entities with
              factions := kvSet s.entities.factions entity_id f' } }
    | none =>
      if kvContains eu.updates "name" then do
        let nm ← match kvLookup eu.updates "name" with
          | some (.vstr s) => Except.ok s
          | _ => Except.error "Faction.name type"
        let leader ← getOptStrArg eu.updates "leader_id"
        let members ← getListArg eu.updates "members"
        let meta ← getMetaArg eu.updates
        .ok { s with entities := { s.entities with
                factions := kvSet s.entities.factions entity_id
                  { id := entity_id, name := nm, leader_id := leader,
                    members := members, metadata := meta } } }
      else .ok s

/-- The `player_updates` loop of `apply_state_patch`: the four closed-set keys
(applied only when the value is a list), everything else by direct `setattr`. -/
def playerUpdateStep (p : PlayerState) (key : String) (v : Val) :
    Except String PlayerState :=
  (if key == "inventory_add" then
      match v with
      | .vlist l => .ok { p with inventory :=
          (l.foldl (fun inv i => if inv.contains i then inv else inv ++ [i]) p.inventory) }
      | _ => .ok p
    else if key == "inventory_remove" then
      match v with
      | .vlist l => .ok { p with inventory := p.inventory.filter (fun i => !l.contains i) }
      | _ => .ok p
    else if key == "party_add" then
      match v with
      | .vlist l => .ok { p with party :=
          (l.foldl (fun pt c => if pt.contains c then pt else pt ++ [c]) p.party) }
      | _ => .ok p
    else if key == "party_remove" then
      match v with
      | .vlist l => .ok { p with party := p.party.filter (fun c => !l.contains c) }
      | _ => .ok p
    else setattrPlayer p key v)

/-- The `player_updates` loop of `apply_state_patch`. -/
def applyPlayerUpdates (p : PlayerState) (upd : KVList String Val) :
    Except String PlayerState :=
  setattrFold playerUpdateStep p upd

/-- The `time_update` section of `apply_state_patch` (and of the gate's
projection, which is identical). -/
def applyTimeUpdate (t : TimeState) (tu : TimeUpdate) : TimeState :=
  let t1 := match tu.calendar with
    | some c => if c != "" then { t with calendar := c } else t
    | none => t
  match tu.anchor with
  | some a => { t1 with anchor := a }
  | none => t1

/-- Update the first quest with this id in a list, in place (`for quest in
list: if quest.id == ...: ...; break`); `none` when no quest matches. -/
def updFirstQuest (l : List Quest) (qid : String) (st : QStatus)
    (m : Option (List (String × String))) : Option (List Quest) :=
  match l with
  | [] => none
  | q :: r =>
    if q.id == qid then
      let q' := { q with
        status := st
        metadata := (match m with
          | some md => if md.isEmpty then q.metadata else kvMerge q.metadata md
          | none => q.metadata) }
      some (q' :: r)
    else
      match updFirstQuest r qid st m with
      | some r' => some (q :: r')
      | none => none

/-- One `quest_update` step of `apply_state_patch`. -/
def applyQuestUpdate (q : QuestState) (qu : QuestUpdate) : QuestState :=
  let q1 : QuestState :=
    match updFirstQuest q.active qu.quest_id qu.status qu.metadata with
    | some act => { q with active := act }
    | none =>
      match updFirstQuest q.completed qu.quest_id qu.status qu.metadata with
      | some comp => { q with completed := comp }
      | none =>
        let title := match qu.metadata with
          | some md =>
            if md.isEmpty then qu.quest_id
            else match kvLookup md "title" with
              | some t => t
              | none => qu.quest_id
          | none => qu.quest_id
        let nq : Quest := { id := qu.quest_id, title := title, status := qu.status,
                            prerequisites := [], metadata := (qu.metadata).getD [] }
        match qu.status with
        | .completed => { q with completed := q.completed ++ [nq] }
        | .failed => { q with completed := q.completed ++ [nq] }
        | .active => { q with active := q.active ++ [nq] }
  if qu.status == .completed || qu.status == .failed then
    let act' := q1.active.filter (fun qq => qq.id != qu.quest_id)
    if q1.completed.any (fun qq => qq.id == qu.quest_id) then
      { active := act', completed := q1.completed }
    else
      match (act' ++ q1.completed).find? (fun qq => qq.id == qu.quest_id) with
      | some qq =>
        { active := act'
          completed := q1.completed ++ [{ qq with status := qu.status }] }
      | none => { active := act', completed := q1.completed }
  else q1

/-- One `constraint_additions` step of `apply_state_patch`. -/
def applyConstraintAddition (c : Constraints) (con : Constraint) : Constraints :=
  let c1 := { c with constraints := c.constraints ++ [con] }
  if con.ctype == .unique_item then
    match con.entity_id with
    | some eid =>
      if eid != "" && !c1.unique_item_ids.contains eid then
        { c1 with unique_item_ids := c1.unique_item_ids ++ [eid] }
      else c1
    | none => c1
  else c1

/-- `_ensure_location_references`: the location ids collected from the player,
the characters and the items (`location_id`, plus `owner_id` when it resolves
to neither an existing location nor a character).  CPython iterates the
collected `set` in unspecified order; the embedding keeps first-occurrence
order, which is irrelevant to every verified property. -/
def itemRequiredIds (locs : KVList String Location)
    (chars : KVList String Character) (it : Item) : List String :=
  let fromLoc : List String :=
    match it.location_id with
    | some l => if l != "" then [l] else []
    | none => []
  let fromOwner : List String :=
    match it.owner_id with
    | some o =>
      if o != "" && !kvContains locs o && !kvContains chars o then [o] else []
    | none => []
  fromLoc ++ fromOwner

def requiredLocationIds (s : CanonicalState) : List String :=
  (if s.player.location_id != "" then [s.player.location_id] else []) ++
  s.entities.characters.filterMap (fun kv =>
    if kv.2.location_id != "" then some kv.2.location_id else none) ++
  s.entities.items.flatMap (fun kv =>
    itemRequiredIds s.entities.locations s.entities.characters kv.2)

/-- Create every still-missing required location (`name = id`). -/
def createMissingLocations (locs : KVList String Location) (req : List String) :
    KVList String Location :=
  req.foldl (fun ls lid =>
    if kvContains ls lid then ls
    else kvSet ls lid { id := lid, name := lid, parent_location_id := none,
                        metadata := [] }) locs

/-- `_ensure_location_references` (state_manager.py). -/
def ensure_location_references (s : CanonicalState) : CanonicalState :=
  { s with entities := { s.entities with
      locations := createMissingLocations s.entities.locations (requiredLocationIds s) } }

/-- The `entity_updates` loop of `apply_state_patch`. -/
def applyEntityUpdates : CanonicalState → KVList String EntityUpdate →
    Except String CanonicalState
  | s, [] => .ok s
  | s, kv :: r =>
    match apply_entity_update s kv.1 kv.2 with
    | .ok s' => applyEntityUpdates s' r
    | .error m => .error m

/-- The `player_updates` stage of `apply_state_patch` (skipped when the
mapping is absent or empty, by Python truthiness). -/
def applyPlayerStage (s : CanonicalState) (patch : StatePatch) :
    Except String CanonicalState :=
  match patch.player_updates with
  | some upd =>
    if upd.isEmpty then .ok s
    else
      match applyPlayerUpdates s.player upd with
      | .ok p => .ok { s with player := p }
      | .error m => .error m
  | none => .ok s

/-- The pure tail of `apply_state_patch`: time update, quest updates (skipped
when absent or empty), constraint additions, meta stamping, and the location
auto-materialiser. -/
def applyPatchRest (s : CanonicalState) (patch : StatePatch)
    (event_id : String) (turn : Nat) : CanonicalState :=
  let s1 := match patch.time_update with
    | some tu => { s with time := applyTimeUpdate s.time tu }
    | none => s
  let s2 := match patch.quest_updates with
    | some qus =>
      if qus.isEmpty then s1
      else { s1 with quest := qus.foldl applyQuestUpdate s1.quest }
    | none => s1
  let s3 := { s2 with constraints :=
    patch.constraint_additions.foldl applyConstraintAddition s2.constraints }
  let s4 := { s3 with meta :=
    { s3.meta with turn := turn, last_event_id := some event_id } }
  ensure_location_references s4

/-- `apply_state_patch` (state_manager.py). -/
def apply_state_patch (state : CanonicalState) (patch : StatePatch)
    (event_id : String) (turn : Nat) : Except String CanonicalState :=
  match applyEntityUpdates state patch.entity_updates with
  | .ok s1 =>
    match applyPlayerStage s1 patch with
    | .ok s2 => .ok (applyPatchRest s2 patch event_id turn)
    | .error m => .error m
  | .error m => .error m

/-- The loop of `apply_multiple_patches`, threading the running state, the
accumulated `max_turn` and the last event id. -/
def ampGo (cur : CanonicalState) (maxT : Nat) (lastId : Option String) :
    List Event → Except String (CanonicalState × Nat × Option String)
  | [] => .ok (cur, maxT, lastId)
  | e :: r =>
    match apply_state_patch cur e.state_patch e.event_id e.turn with
    | .ok s' => ampGo s' (max maxT e.turn) (some e.event_id) r
    | .error m => .error m

/-- `apply_multiple_patches` (state_manager.py): iterate `apply_state_patch`,
then overwrite `meta.turn`/`meta.last_event_id` with the accumulated values and
re-run the location auto-materialiser. -/
def apply_multiple_patches (state : CanonicalState) (events : List Event) :
    Except String CanonicalState :=
  if events.isEmpty then .ok state
  else
    (ampGo state state.meta.turn state.meta.last_event_id events).map
      (fun acc =>
        ensure_location_references
          { acc.1 with meta :=
              { acc.1.meta with turn := acc.2.1, last_event_id := acc.2.2 } })

/-- Plain left fold of `apply_state_patch` over an event sequence: the
"successively calling apply in order" side of the fold-equivalence claims. -/
def foldApply (s : CanonicalState) : List Event → Except String CanonicalState
  | [] => .ok s
  | e :: r =>
    match apply_state_patch s e.state_patch e.event_id e.turn with
    | .ok s' => foldApply s' r
    | .error m => .error m

/-- `CanonicalState.validate_references` (state.py): referential integrity,
`true` when no error is collected. -/
def validate_references (s : CanonicalState) : Bool :=
  kvContains s.entities.locations s.player.location_id &&
  s.player.party.all (fun cid => kvContains s.entities.characters cid) &&
  s.player.inventory.all (fun iid => kvContains s.entities.items iid) &&
  s.entities.characters.all (fun kv =>
    kvContains s.entities.locations kv.2.location_id &&
    (match kv.2.faction_id with
     | some f => f == "" || kvContains s.entities.factions f
     | none => true)) &&
  s.entities.items.all (fun kv =>
    (match kv.2.owner_id with
     | some o => o == "" || kvContains s.entities.characters o ||
         kvContains s.entities.locations o
     | none => true) &&
    (match kv.2.location_id with
     | some l => l == "" || kvContains s.entities.locations l
     | none => true)) &&
  s.entities.locations.all (fun kv =>
    match kv.2.parent_location_id with
    | some p => p == "" || kvContains s.entities.locations p
    | none => true) &&
  s.entities.factions.all (fun kv =>
    (match kv.2.leader_id with
     | some l => l == "" || kvContains s.entities.characters l
     | none => true) &&
    kv.2.members.all (fun m => kvContains s.entities.characters m))

-- ==================== Consistency Gate (backend/gate/consistency_gate.py) ====================

inductive Severity where
  | error
  | warning
deriving Repr, DecidableEq

structure RuleViolation where
  rule_id : String
  rule_name : String
  severity : Severity
  message : String
  entity_id : Option String
  fixable : Bool
deriving Repr, DecidableEq

inductive GateAction where
  | PASS
  | AUTO_FIX
  | REWRITE
  | ASK_USER
deriving Repr, DecidableEq

structure ValidationResult where
  action : GateAction
  reasons : List String
  violations : List RuleViolation
  fixes : Option StatePatch
  questions : Option (List String)
deriving Repr, DecidableEq

/-- The entity part of `_apply_patches_to_state`: in-place `setattr` on
existing items and characters only; missing entities and the other entity
types are skipped ("其他类型类似处理..." is a comment, not code). -/
def projectEntityUpdate (e : Entities) (entity_id : String) (eu : EntityUpdate) :
    Except String Entities :=
  match eu.entity_type with
  | .item =>
    match kvLookup e.items entity_id with
    | some it => do
      let it' ← setattrFold setattrItem it eu.updates
      .ok { e with items := kvSet e.items entity_id it' }
    | none => .ok e
  | .character =>
    match kvLookup e.characters entity_id with
    | some c => do
      let c' ← setattrFold setattrChar c eu.updates
      .ok { e with characters := kvSet e.characters entity_id c' }
    | none => .ok e
  | _ => .ok e

/-- One event step of `_apply_patches_to_state`.  Note that `player_updates`
is applied by *direct* `setattr` for every key, so the closed-set keys
(`inventory_add`, ...) raise `ValueError` in pydantic v2. -/
def projectEntityUpdates : Entities → KVList String EntityUpdate →
    Except String Entities
  | e, [] => .ok e
  | e, kv :: r =>
    match projectEntityUpdate e kv.1 kv.2 with
    | .ok e' => projectEntityUpdates e' r
    | .error m => .error m

def projectEvent (s : CanonicalState) (ev : Event) : Except String CanonicalState := do
  let ents ← projectEntityUpdates s.entities ev.state_patch.entity_updates
  let s := { s with entities := ents }
  let s ← match ev.state_patch.player_updates with
    | some upd =>
      if upd.isEmpty then pure s
      else do
        let p ← setattrFold setattrPlayer s.player upd
        pure { s with player := p }
    | none => pure s
  pure (match ev.state_patch.time_update with
    | some tu => { s with time := applyTimeUpdate s.time tu }
    | none => s)

/-- `_apply_patches_to_state` (consistency_gate.py). -/
def apply_patches_to_state : CanonicalState → List Event →
    Except String CanonicalState
  | s, [] => .ok s
  | s, e :: r =>
    match projectEvent s e with
    | .ok s' => apply_patches_to_state s' r
    | .error m => .error m

-- ==================== R1 ====================

/-- Collect, per unique item id, the truthy `owner_id` values assigned by the
batch (keyed by `entity_update.entity_id`, insertion ordered). -/
def r1CollectOwners (unique_ids : List String) (events : List Event) :
    KVList String (List Val) :=
  events.foldl (fun acc ev =>
    ev.state_patch.entity_updates.foldl (fun acc kv =>
      let eu := kv.2
      if eu.entity_type == .item && unique_ids.contains eu.entity_id then
        match kvLookup eu.updates "owner_id" with
        | some v =>
          if v.truthy then
            match kvLookup acc eu.entity_id with
            | some l => kvSet acc eu.entity_id (l ++ [v])
            | none => kvSet acc eu.entity_id [v]
          else acc
        | none => acc
      else acc) acc) []

/-- Distinct values in first-occurrence order (Python `set(list)`). -/
def distinctVals : List Val → List Val
  | [] => []
  | v :: r =>
    let rest := distinctVals r
    if rest.contains v then rest else v :: rest

/-- Distinct values keeping first-occurrence order. -/
def distinctValsFO (l : List Val) : List Val :=
  l.foldl listSetAdd []

def r1Message (item_name item_id : String) (owners : List Val) : String :=
  "唯一物品 \x27" ++ item_name ++ "\x27 (" ++ item_id ++
  ") 在多个事件中被分配给不同的拥有者: " ++ pySetRepr owners

/-- `_check_r1_unique_item_ownership`.  The first and third loops of the
source have empty (`pass`) bodies; only the multi-owner check emits. -/
def check_r1 (cur _temp : CanonicalState) (events : List Event) :
    List RuleViolation :=
  let owners := r1CollectOwners cur.constraints.unique_item_ids events
  owners.flatMap (fun kv =>
    let item_id := kv.1
    let distinct := distinctValsFO kv.2
    if distinct.length > 1 then
      let item_name := match kvLookup cur.entities.items item_id with
        | some it => it.name
        | none => item_id
      [{ rule_id := "R1", rule_name := "唯一物品不能多重归属",
         severity := .error,
         message := r1Message item_name item_id distinct,
         entity_id := some item_id, fixable := false }]
    else [])

-- ==================== R2 ====================

def r2Message (item_name item_id : String) (item_loc : Option String)
    (owner expected : String) : String :=
  "物品 \x27" ++ item_name ++ "\x27 (" ++ item_id ++ ") 的 location_id (" ++
  optPlain item_loc ++ ") 与 owner (" ++ owner ++ ") 的位置 (" ++ expected ++
  ") 不一致"

/-- The expected location for an owner id: the owner's `location_id` when the
owner is a character, the owner id itself when it is a location, `none`
otherwise.  Both R2 and `_build_fix_patch` compute exactly this. -/
def ownerExpectedLocation (chars : KVList String Character)
    (locs : KVList String Location) (o : String) : Option String :=
  match kvLookup chars o with
  | some c => some c.location_id
  | none => if kvContains locs o then some o else none

/-- The per-item body of R2's loop. -/
def r2ItemCheck (chars : KVList String Character) (locs : KVList String Location)
    (item_id : String) (item : Item) : Option RuleViolation :=
  match item.owner_id with
  | some o =>
    if o != "" then
      match ownerExpectedLocation chars locs o with
      | some exp =>
        if exp != "" && item.location_id != some exp then
          some { rule_id := "R2", rule_name := "物品位置与归属一致",
                 severity := .warning,
                 message := r2Message item.name item_id item.location_id o exp,
                 entity_id := some item_id, fixable := true }
        else none
      | none => none
    else none
  | none => none

/-- `_check_r2_item_location_consistency`: for every item of the projected
state with a truthy owner, the expected location (the owner's location for a
character owner, the owner id for a location owner); emit a fixable warning
when it is truthy and differs from the item's `location_id`. -/
def check_r2 (_cur temp : CanonicalState) (_events : List Event) :
    List RuleViolation :=
  temp.entities.items.filterMap (fun kv =>
    r2ItemCheck temp.entities.characters temp.entities.locations kv.1 kv.2)

-- ==================== R3 ====================

def deadCharacterIds (cur : CanonicalState) : List String :=
  cur.entities.characters.filterMap (fun kv =>
    if kv.2.alive then none else some kv.1)

def charNameOr (chars : KVList String Character) (cid : String) : String :=
  match kvLookup chars cid with
  | some c => c.name
  | none => cid

/-- `_check_r3_dead_character_action`.  The source's trailing
`if event.type in ["DEATH", "REVIVAL"]: continue` is the last statement of
the loop body, hence a no-op: the dead-actor check applies to every event
type.  The second loop (illicit `alive=True`) does test the event type. -/
def check_r3 (cur _temp : CanonicalState) (events : List Event) :
    List RuleViolation :=
  let dead := deadCharacterIds cur
  let part1 := events.flatMap (fun ev =>
    ev.who.actors.filterMap (fun aid =>
      if dead.contains aid then
        some { rule_id := "R3", rule_name := "死亡角色不能行动/说话",
               severity := .error,
               message := "死亡角色 \x27" ++ charNameOr cur.entities.characters aid ++
                 "\x27 (" ++ aid ++ ") 在事件 \x27" ++ ev.summary ++ "\x27 中作为行动者",
               entity_id := some aid, fixable := false }
      else none))
  let part2 := events.flatMap (fun ev =>
    if ev.type != .REVIVAL then
      ev.state_patch.entity_updates.filterMap (fun kv =>
        let eu := kv.2
        if eu.entity_type == .character && dead.contains eu.entity_id &&
           kvLookup eu.updates "alive" == some (.vbool true) then
          some { rule_id := "R3", rule_name := "死亡角色不能行动/说话",
                 severity := .error,
                 message := "死亡角色 \x27" ++ charNameOr cur.entities.characters eu.entity_id ++
                   "\x27 (" ++ eu.entity_id ++ ") 被更新为 alive=True，但事件类型不是 REVIVAL",
                 entity_id := some eu.entity_id, fixable := false }
        else none)
    else [])
  part1 ++ part2

-- ==================== R4 ====================

/-- `_check_r4_explicit_state_change`. -/
def check_r4 (cur _temp : CanonicalState) (events : List Event) :
    List RuleViolation :=
  events.flatMap (fun ev =>
    ev.state_patch.entity_updates.flatMap (fun kv =>
      let eu := kv.2
      if eu.entity_type == .character then
        let cid := eu.entity_id
        let alivePart : List RuleViolation :=
          match kvLookup eu.updates "alive" with
          | some newAlive =>
            (match kvLookup cur.entities.characters cid with
             | some c =>
               if Val.vbool c.alive != newAlive then
                 if newAlive == .vbool false && ev.type != .DEATH then
                   [{ rule_id := "R4", rule_name := "生死/状态变更必须显式事件",
                      severity := .error,
                      message := "角色 \x27" ++ c.name ++ "\x27 (" ++ cid ++
                        ") 的 alive 状态从 True 变为 False，但事件类型不是 DEATH",
                      entity_id := some cid, fixable := false }]
                 else if newAlive == .vbool true && ev.type != .REVIVAL then
                   [{ rule_id := "R4", rule_name := "生死/状态变更必须显式事件",
                      severity := .error,
                      message := "角色 \x27" ++ c.name ++ "\x27 (" ++ cid ++
                        ") 的 alive 状态从 False 变为 True，但事件类型不是 REVIVAL",
                      entity_id := some cid, fixable := false }]
                 else []
               else []
             | none => [])
          | none => []
        let factionPart : List RuleViolation :=
          match kvLookup eu.updates "faction_id" with
          | some newF =>
            (match kvLookup cur.entities.characters cid with
             | some c =>
               if optStrToVal c.faction_id != newF && ev.type != .FACTION_CHANGE then
                 [{ rule_id := "R4", rule_name := "生死/状态变更必须显式事件",
                    severity := .error,
                    message := "角色 \x27" ++ c.name ++ "\x27 (" ++ cid ++
                      ") 的 faction_id 从 \x27" ++ optPlain c.faction_id ++
                      "\x27 变为 \x27" ++ valPlain newF ++ "\x27，但事件类型不是 FACTION_CHANGE",
                    entity_id := some cid, fixable := false }]
               else []
             | none => [])
          | none => []
        alivePart ++ factionPart
      else []))

-- ==================== R5 ====================

/-- `_check_r5_travel_event_required`.  The item branch of the source is a
`pass`. -/
def check_r5 (cur _temp : CanonicalState) (events : List Event) :
    List RuleViolation :=
  events.flatMap (fun ev =>
    ev.state_patch.entity_updates.flatMap (fun kv =>
      let eu := kv.2
      if eu.entity_type == .character then
        let cid := eu.entity_id
        match kvLookup eu.updates "location_id" with
        | some newLoc =>
          (match kvLookup cur.entities.characters cid with
           | some c =>
             if Val.vstr c.location_id != newLoc then
               if ev.type != .TRAVEL then
                 [{ rule_id := "R5",
                    rule_name := "位置变化必须由 move 事件解释（防瞬移）",
                    severity := .error,
                    message := "角色 \x27" ++ c.name ++ "\x27 (" ++ cid ++
                      ") 的位置从 \x27" ++ c.location_id ++ "\x27 变为 \x27" ++
                      valPlain newLoc ++ "\x27，但事件类型不是 TRAVEL",
                    entity_id := some cid, fixable := false }]
               else
                 match kvLookup ev.payload "character_id" with
                 | some pv =>
                   if pv != Val.vstr cid then
                     [{ rule_id := "R5",
                        rule_name := "位置变化必须由 move 事件解释（防瞬移）",
                        severity := .error,
                        message := "TRAVEL 事件的 character_id (" ++ valPlain pv ++
                          ") 与更新的角色 (" ++ cid ++ ") 不匹配",
                        entity_id := some cid, fixable := false }]
                   else []
                 | none => []
             else []
           | none => [])
        | none => []
      else []))

-- ==================== R6 ====================

/-- First loop of `_check_r6_single_location_per_character`: a Python dict
cannot hold a duplicate key, so on dict-built states this emits nothing; the
embedding keeps the literal seen-before check. -/
def r6Part1 : KVList String Character → List String → List RuleViolation
  | [], _ => []
  | (cid, c) :: r, seen =>
    (if seen.contains cid then
      [{ rule_id := "R6", rule_name := "同一角色同一时刻不能在多个地点",
         severity := .error,
         message := "角色 \x27" ++ c.name ++ "\x27 (" ++ cid ++
           ") 在状态中有多个位置定义",
         entity_id := some cid, fixable := false }]
     else []) ++ r6Part1 r (cid :: seen)

/-- Group the batch by `time.order`, keeping first-occurrence order of the
orders and input order inside each group. -/
def groupByTimeOrder (events : List Event) : KVList Nat (List Event) :=
  events.foldl (fun acc e =>
    match kvLookup acc e.time.order with
    | some l => kvSet acc e.time.order (l ++ [e])
    | none => kvSet acc e.time.order [e]) []

/-- Per-group location sets: explicit `location_id` updates always add; for
non-TRAVEL events an actor *without an entry yet* gets the event's
`where.location_id`. -/
def r6GroupLocations (events : List Event) : KVList String (List Val) :=
  events.foldl (fun acc e =>
    let acc := e.state_patch.entity_updates.foldl (fun acc kv =>
      let eu := kv.2
      if eu.entity_type == .character then
        match kvLookup eu.updates "location_id" with
        | some v =>
          (match kvLookup acc eu.entity_id with
           | some l => kvSet acc eu.entity_id (listSetAdd l v)
           | none => kvSet acc eu.entity_id [v])
        | none => acc
      else acc) acc
    if e.type != .TRAVEL then
      e.who.actors.foldl (fun acc aid =>
        if kvContains acc aid then acc
        else kvSet acc aid [Val.vstr e.where_.location_id]) acc
    else acc) []

/-- `_check_r6_single_location_per_character`. -/
def check_r6 (cur temp : CanonicalState) (events : List Event) :
    List RuleViolation :=
  r6Part1 temp.entities.characters [] ++
  (groupByTimeOrder events).flatMap (fun grp =>
    (r6GroupLocations grp.2).flatMap (fun kv =>
      if kv.2.length > 1 then
        [{ rule_id := "R6", rule_name := "同一角色同一时刻不能在多个地点",
           severity := .error,
           message := "角色 \x27" ++ charNameOr cur.entities.characters kv.1 ++
             "\x27 (" ++ kv.1 ++ ") 在时间点 " ++ toString grp.1 ++
             " 同时出现在多个地点: " ++ pySetRepr kv.2,
           entity_id := some kv.1, fixable := false }]
      else []))

-- ==================== R7 ====================

/-- Stable-ascending comparison key `(turn, time.order)`. -/
def evKeyLe (f e : Event) : Bool :=
  f.turn < e.turn || (f.turn == e.turn && f.time.order ≤ e.time.order)

def insertSortedEvent (e : Event) : List Event → List Event
  | [] => [e]
  | f :: r => if evKeyLe f e then f :: insertSortedEvent e r else e :: f :: r

/-- Python `sorted(events, key=lambda e: (e.turn, e.time.order))` (stable). -/
def sortEventsByTurnOrder (l : List Event) : List Event :=
  l.foldl (fun acc e => insertSortedEvent e acc) []

/-- The running-maximum walk of the first R7 check: an event is flagged when
its `time.order` is below the running maximum of the anchor order and every
previously walked (sorted) event's order. -/
def r7Walk (curOrder : Nat) : List Event → List RuleViolation
  | [] => []
  | e :: r =>
    (if e.time.order < curOrder then
      [{ rule_id := "R7", rule_name := "时间戳单调递增（回忆不推进time）",
         severity := .error,
         message := "事件 \x27" ++ e.summary ++ "\x27 (event_id: " ++
           e.event_id ++ ") 的时间顺序值 (" ++ toString e.time.order ++
           ") 小于当前时间 (" ++ toString curOrder ++ ")",
         entity_id := none, fixable := false }]
     else []) ++ r7Walk (max curOrder e.time.order) r

/-- First later event of the same turn with a strictly smaller order
(the inner loop of the pairwise R7 check stops at the first hit). -/
def r7FirstInversion (e : Event) : List Event → Option Event
  | [] => none
  | f :: r =>
    if e.turn == f.turn && f.time.order < e.time.order then some f
    else r7FirstInversion e r

def r7Pairs : List Event → List RuleViolation
  | [] => []
  | e :: r =>
    (match r7FirstInversion e r with
     | some f =>
       [{ rule_id := "R7", rule_name := "时间戳单调递增（回忆不推进time）",
          severity := .error,
          message := "同一轮次 (" ++ toString e.turn ++ ") 中，事件 \x27" ++
            e.summary ++ "\x27 的时间顺序值 (" ++ toString e.time.order ++
            ") 大于后续事件 \x27" ++ f.summary ++ "\x27 的时间顺序值 (" ++
            toString f.time.order ++ ")",
          entity_id := none, fixable := false }]
     | none => []) ++ r7Pairs r

/-- `_check_r7_monotonic_timeline`. -/
def check_r7 (cur temp : CanonicalState) (events : List Event) :
    List RuleViolation :=
  r7Walk cur.time.anchor.order (sortEventsByTurnOrder events) ++
  r7Pairs events ++
  (if temp.time.anchor.order < cur.time.anchor.order then
    [{ rule_id := "R7", rule_name := "时间戳单调递增（回忆不推进time）",
       severity := .error,
       message := "临时状态的时间顺序值 (" ++ toString temp.time.anchor.order ++
         ") 小于当前状态的时间顺序值 (" ++ toString cur.time.anchor.order ++ ")",
       entity_id := none, fixable := false }]
   else [])

-- ==================== R8 ====================

/-- The alternate-history flag computed at the top of R8; the source computes
it and never uses it. -/
def isAlternateMode (cur : CanonicalState) : Bool :=
  cur.constraints.constraints.any (fun con =>
    con.ctype == .entity_state && con.description != "" &&
    strContainsB con.description "架空")

/-- `_check_r8_immutable_constraints`. -/
def check_r8 (cur temp : CanonicalState) (events : List Event) :
    List RuleViolation :=
  let immutPart := events.filterMap (fun e =>
    if cur.constraints.immutable_events.contains e.event_id then
      some { rule_id := "R8", rule_name := "immutable timeline constraints 不可违背",
             severity := .error,
             message := "事件 \x27" ++ e.event_id ++
               "\x27 已被标记为不可变事件，不能修改或删除",
             entity_id := none, fixable := false }
    else none)
  let constraintPart := cur.constraints.constraints.flatMap (fun con =>
    match con.ctype with
    | .entity_state =>
      (match con.entity_id with
       | some eid =>
         if eid != "" then
           match kvLookup temp.entities.characters eid with
           | some c =>
             (match kvLookup con.value "alive" with
              | some v =>
                if Val.vbool c.alive != v then
                  [{ rule_id := "R8",
                     rule_name := "immutable timeline constraints 不可违背",
                     severity := .error,
                     message := "硬约束违反：角色 \x27" ++ c.name ++ "\x27 (" ++
                       eid ++ ") 的状态违反约束 \x27" ++ con.description ++ "\x27",
                     entity_id := some eid, fixable := false }]
                else []
              | none => [])
           | none => []
         else []
       | none => [])
    | .relationship =>
      (match con.entity_id with
       | some eid =>
         if eid != "" then
           match kvLookup temp.entities.characters eid with
           | some c =>
             (match kvLookup con.value "faction_id" with
              | some v =>
                if optStrToVal c.faction_id != v then
                  [{ rule_id := "R8",
                     rule_name := "immutable timeline constraints 不可违背",
                     severity := .error,
                     message := "硬约束违反：角色 \x27" ++ c.name ++ "\x27 (" ++
                       eid ++ ") 的阵营关系违反约束 \x27" ++ con.description ++ "\x27",
                     entity_id := some eid, fixable := false }]
                else []
              | none => [])
           | none => []
         else []
       | none => [])
    | .unique_item =>
      (match con.entity_id with
       | some eid =>
         if eid != "" then
           match kvLookup temp.entities.items eid with
           | some it =>
             (match kvLookup con.value "owner_id" with
              | some v =>
                if optStrToVal it.owner_id != v then
                  [{ rule_id := "R8",
                     rule_name := "immutable timeline constraints 不可违背",
                     severity := .error,
                     message := "硬约束违反：物品 \x27" ++ it.name ++ "\x27 (" ++
                       eid ++ ") 的所有权违反约束 \x27" ++ con.description ++ "\x27",
                     entity_id := some eid, fixable := false }]
                else []
              | none => [])
           | none => []
         else []
       | none => [])
    | .immutable_event => [])
  immutPart ++ constraintPart

-- ==================== R9 ====================

/-- `_check_r9_traceable_relationship_change`. -/
def check_r9 (cur _temp : CanonicalState) (events : List Event) :
    List RuleViolation :=
  events.flatMap (fun ev =>
    ev.state_patch.entity_updates.flatMap (fun kv =>
      let eu := kv.2
      if eu.entity_type == .character then
        let cid := eu.entity_id
        let factionPart : List RuleViolation :=
          match kvLookup eu.updates "faction_id" with
          | some newF =>
            (match kvLookup cur.entities.characters cid with
             | some c =>
               if optStrToVal c.faction_id != newF then
                 if ev.type != .FACTION_CHANGE then
                   [{ rule_id := "R9", rule_name := "阵营/关系变更需可追溯事件",
                      severity := .error,
                      message := "角色 \x27" ++ c.name ++ "\x27 (" ++ cid ++
                        ") 的阵营从 \x27" ++ optPlain c.faction_id ++
                        "\x27 变为 \x27" ++ valPlain newF ++
                        "\x27，但事件类型不是 FACTION_CHANGE",
                      entity_id := some cid, fixable := false }]
                 else if !kvContains ev.payload "character_id" then
                   [{ rule_id := "R9", rule_name := "阵营/关系变更需可追溯事件",
                      severity := .error,
                      message := "FACTION_CHANGE 事件缺少 character_id 字段，无法追溯",
                      entity_id := some cid, fixable := false }]
                 else []
               else []
             | none => [])
          | none => []
        let metaPart : List RuleViolation :=
          match kvLookup eu.updates "metadata" with
          | some m =>
            if valHasKey m "relationship_changes" && ev.type != .RELATIONSHIP_CHANGE then
              [{ rule_id := "R9", rule_name := "阵营/关系变更需可追溯事件",
                 severity := .error,
                 message := "角色 \x27" ++ charNameOr cur.entities.characters cid ++
                   "\x27 (" ++ cid ++ ") 的关系发生变更，但事件类型不是 RELATIONSHIP_CHANGE",
                 entity_id := some cid, fixable := false }]
            else []
          | none => []
        factionPart ++ metaPart
      else []))

/-- `_check_r10_draft_factual_consistency` on the event-batch path: the source
returns an empty list whenever `pending_events is not None`. -/
def check_r10 (_cur _temp : CanonicalState) (_events : List Event) :
    List RuleViolation :=
  []

-- ==================== Action decision ====================

def clarificationQuestion (v : RuleViolation) : String :=
  "规则 " ++ v.rule_id ++ " 违反: " ++ v.message ++ "。请确认如何处理？"

def reasonLine (v : RuleViolation) : String :=
  v.rule_id ++ ": " ++ v.message

/-- The loop body of `_build_fix_patch`: one violation's contribution to the
accumulated fix updates. -/
def buildFixStep (state : CanonicalState) (acc : KVList String EntityUpdate)
    (v : RuleViolation) : KVList String EntityUpdate :=
  if v.fixable then
    match v.entity_id with
    | some eid =>
      if eid != "" && v.rule_id == "R2" then
        match kvLookup state.entities.items eid with
        | some item =>
          (match item.owner_id with
           | some o =>
             if o != "" then
               match ownerExpectedLocation state.entities.characters
                   state.entities.locations o with
               | some cl =>
                 let acc1 := if kvContains acc eid then acc
                   else kvSet acc eid { entity_type := .item, entity_id := eid,
                                        updates := [] }
                 kvModify acc1 eid (fun eu =>
                   { eu with updates := kvSet eu.updates "location_id" (.vstr cl) })
               | none => acc
             else acc
           | none => acc)
        | none => acc
      else acc
    | none => acc
  else acc

/-- `_build_fix_patch` (consistency_gate.py): for each fixable R2 violation
whose entity resolves to an item with a resolvable owner, an item update
setting `location_id` to the corrected location. -/
def build_fix_patch (violations : List RuleViolation) (state : CanonicalState) :
    Option StatePatch :=
  let eus := violations.foldl (buildFixStep state) []
  if eus.isEmpty then none
  else some { entity_updates := eus, time_update := none, quest_updates := none,
              constraint_additions := [], player_updates := none }

/-- `_determine_action` (consistency_gate.py). -/
def determine_action (violations : List RuleViolation) (cur : CanonicalState)
    (temp : Option CanonicalState) : ValidationResult :=
  if violations.isEmpty then
    { action := .PASS, reasons := [], violations := [], fixes := none,
      questions := none }
  else
    let errors := violations.filter (fun v => v.severity == .error)
    let warnings := violations.filter (fun v => v.severity == .warning)
    let fixable := violations.filter (fun v => v.fixable)
    let reasons := violations.map reasonLine
    if !errors.isEmpty then
      let needs_clarification := errors.any (fun v =>
        strContainsB v.message "多重归属" || strContainsB v.message "死亡角色")
      if needs_clarification then
        { action := .ASK_USER, reasons := reasons, violations := violations,
          fixes := none, questions := some (errors.map clarificationQuestion) }
      else
        { action := .REWRITE, reasons := reasons, violations := violations,
          fixes := none, questions := none }
    else if !warnings.isEmpty && fixable.length == warnings.length then
      { action := .AUTO_FIX, reasons := reasons, violations := violations,
        fixes := build_fix_patch violations (temp.getD cur), questions := none }
    else
      { action := .REWRITE, reasons := reasons, violations := violations,
        fixes := none, questions := none }

/-- The concatenated violations of the ten rules, in registration order. -/
def allRuleViolations (cur temp : CanonicalState) (events : List Event) :
    List RuleViolation :=
  check_r1 cur temp events ++ check_r2 cur temp events ++
  check_r3 cur temp events ++ check_r4 cur temp events ++
  check_r5 cur temp events ++ check_r6 cur temp events ++
  check_r7 cur temp events ++ check_r8 cur temp events ++
  check_r9 cur temp events ++ check_r10 cur temp events

/-- `ConsistencyGate.validate_event_patch`. -/
def validate_event_patch (cur : CanonicalState) (events : List Event) :
    Except String ValidationResult := do
  let temp ← apply_patches_to_state cur events
  pure (determine_action (allRuleViolations cur temp events) cur (some temp))

-- ==================== Spec-side definitions and example inputs ====================

/-- The location-reference fragment of the §3 invariants: every truthy
location reference from the player, a character or an item resolves, and every
truthy item owner resolves to a character or a location. -/
def location_refs_ok (s : CanonicalState) : Bool :=
  (s.player.location_id == "" || kvContains s.entities.locations s.player.location_id) &&
  s.entities.characters.all (fun kv =>
    kv.2.location_id == "" || kvContains s.entities.locations kv.2.location_id) &&
  s.entities.items.all (fun kv =>
    (match kv.2.location_id with
     | some l => l == "" || kvContains s.entities.locations l
     | none => true) &&
    (match kv.2.owner_id with
     | some o => o == "" || kvContains s.entities.characters o ||
         kvContains s.entities.locations o
     | none => true))

/-- Modelled from the spec wording of the action decision (§4.3, claim C4):
no violations is PASS; errors whose messages mention the two literals give
ASK_USER with one question per error; other errors give REWRITE with
"R\x7bn\x7d: \x7bmessage\x7d" reasons; no errors and every warning fixable
gives AUTO_FIX with a synthesised fixes patch; otherwise REWRITE. -/
def spec_decision (violations : List RuleViolation) (cur : CanonicalState)
    (temp : Option CanonicalState) : ValidationResult :=
  let errors := violations.filter (fun v => v.severity == .error)
  let warnings := violations.filter (fun v => v.severity == .warning)
  if violations.isEmpty then
    { action := .PASS, reasons := [], violations := [], fixes := none,
      questions := none }
  else if errors.any (fun v =>
      strContainsB v.message "多重归属" || strContainsB v.message "死亡角色") then
    { action := .ASK_USER, reasons := violations.map reasonLine,
      violations := violations, fixes := none,
      questions := some (errors.map clarificationQuestion) }
  else if !errors.isEmpty then
    { action := .REWRITE, reasons := violations.map reasonLine,
      violations := violations, fixes := none, questions := none }
  else if warnings.all (fun v => v.fixable) then
    { action := .AUTO_FIX, reasons := violations.map reasonLine,
      violations := violations,
      fixes := build_fix_patch violations (temp.getD cur), questions := none }
  else
    { action := .REWRITE, reasons := violations.map reasonLine,
      violations := violations, fixes := none, questions := none }

/-- Claim C5's clause (i), read against a walked list: every order is at least
the running maximum seeded with `m`. -/
def r7MonotoneFrom (m : Nat) : List Event → Bool
  | [] => true
  | e :: r => decide (m ≤ e.time.order) && r7MonotoneFrom (max m e.time.order) r

/-- Claim C5's clause (ii): no same-turn pair, in input order, with the
earlier event's order strictly greater. -/
def r7NoSameTurnInversion : List Event → Bool
  | [] => true
  | e :: r =>
    r.all (fun f => !(e.turn == f.turn && f.time.order < e.time.order)) &&
    r7NoSameTurnInversion r

/-- Batches whose patches only touch existing characters/items and the time
state: the fragment on which the gate projection agrees with the applier. -/
def simplePatch (s : CanonicalState) (e : Event) : Bool :=
  e.state_patch.entity_updates.all (fun kv =>
    (kv.2.entity_type == .character && kvContains s.entities.characters kv.1) ||
    (kv.2.entity_type == .item && kvContains s.entities.items kv.1)) &&
  (match e.state_patch.player_updates with
   | some l => l.isEmpty
   | none => true) &&
  (match e.state_patch.quest_updates with
   | some l => l.isEmpty
   | none => true) &&
  e.state_patch.constraint_additions.isEmpty

/-- Agreement of two fallible state computations on the components the gate
projection actually writes (characters, items, time). -/
def tempAgrees : Except String CanonicalState → Except String CanonicalState → Prop
  | .ok t, .ok u =>
    t.entities.characters = u.entities.characters ∧
    t.entities.items = u.entities.items ∧ t.time = u.time
  | .error m, .error m2 => m = m2
  | _, _ => False

/-- The `max_turn` accumulated by `apply_multiple_patches`. -/
def maxTurnOf (s : CanonicalState) (events : List Event) : Nat :=
  events.foldl (fun m e => max m e.turn) s.meta.turn

-- Concrete builders and example inputs used by witnesses and counterexamples.

def mkChar (i n l : String) (al : Bool) : Character :=
  { id := i, name := n, location_id := l, alive := al, faction_id := none,
    metadata := [] }

def mkLoc (i n : String) : Location :=
  { id := i, name := n, parent_location_id := none, metadata := [] }

def mkItem (i n : String) (o l : Option String) (u : Bool) : Item :=
  { id := i, name := n, owner_id := o, location_id := l, unique := u,
    metadata := [] }

def mkEU (t : EType) (i : String) (u : KVList String Val) : EntityUpdate :=
  { entity_type := t, entity_id := i, updates := u }

def emptyPatch : StatePatch :=
  { entity_updates := [], time_update := none, quest_updates := none,
    constraint_additions := [], player_updates := none }

def mkEvent (eid : String) (turn ord : Nat) (loc : String) (actors : List String)
    (ty : EventType) (summ : String) (pl : KVList String Val) (sp : StatePatch) :
    Event :=
  { event_id := eid, turn := turn, time := { label := "建安三年春", order := ord },
    where_ := { location_id := loc }, who := { actors := actors, witnesses := [] },
    type := ty, summary := summ, payload := pl, state_patch := sp }

/-- The running-example state of the unit tests: two locations, two
characters, a unique seal and an ordinary sword, both owned by caocao. -/
def stateA : CanonicalState :=
  { meta := { story_id := "test", canon_version := "1.0.0", turn := 0,
              last_event_id := none }
    time := { calendar := "建安三年春", anchor := { label := "建安三年春", order := 1 } }
    player := { id := "player_001", name := "玩家", location_id := "luoyang",
                party := [], inventory := [] }
    entities :=
      { characters := [("caocao", mkChar "caocao" "曹操" "luoyang" true),
                       ("liubei", mkChar "liubei" "刘备" "xuchang" true)]
        items := [("seal_001", mkItem "seal_001" "传国玉玺" (some "caocao")
                     (some "luoyang") true),
                  ("sword_001", mkItem "sword_001" "青釭剑" (some "caocao")
                     (some "luoyang") false)]
        locations := [("luoyang", mkLoc "luoyang" "洛阳"),
                      ("xuchang", mkLoc "xuchang" "许昌")]
        factions := [] }
    quest := { active := [], completed := [] }
    constraints := { unique_item_ids := ["seal_001"], immutable_events := [],
                     constraints := [] } }

/-- C1 counterexample event: its patch creates a fresh item, which the §4.1
applier materialises and the gate projection silently drops. -/
def c1Event : Event :=
  mkEvent "evt_1_c1" 1 2 "luoyang" [] .ITEM_CREATE "发现新物品"
    [("item_id", .vstr "new_item")]
    { emptyPatch with entity_updates :=
        [("new_item", mkEU .item "new_item"
           [("name", .vstr "木剑"), ("owner_id", .vstr "caocao"),
                       ("location_id", .vstr "luoyang")])] }

/-- C1/C6 witness event: in-place updates of an existing item plus a time
update, the fragment on which projection and applier agree. -/
def cwEvent : Event :=
  mkEvent "evt_1_cw" 1 2 "luoyang" [] .OWNERSHIP_CHANGE "曹操将青釭剑交给刘备"
    [("item_id", .vstr "sword_001"), ("old_owner_id", .vstr "caocao"),
     ("new_owner_id", .vstr "liubei")]
    { emptyPatch with
        entity_updates :=
          [("sword_001", mkEU .item "sword_001"
           [("owner_id", .vstr "liubei"),
                         ("location_id", .vstr "xuchang")])]
        time_update := some
          { calendar := some "建安三年夏"
            anchor := some { label := "建安三年夏", order := 2 } } }

/-- C2 counterexample: a one-location valid state. -/
def c2State : CanonicalState :=
  { meta := { story_id := "test", canon_version := "1.0.0", turn := 0,
              last_event_id := none }
    time := { calendar := "初始时间", anchor := { label := "初始时间", order := 0 } }
    player := { id := "player_001", name := "玩家", location_id := "unknown",
                party := [], inventory := [] }
    entities := { characters := [], items := [],
                  locations := [("unknown", mkLoc "unknown" "未知地点")],
                  factions := [] }
    quest := { active := [], completed := [] }
    constraints := { unique_item_ids := [], immutable_events := [],
                     constraints := [] } }

/-- C2 counterexample patch: `party_add` of a character id that does not
exist. -/
def c2Patch : StatePatch :=
  { emptyPatch with player_updates := some [("party_add", .vlist ["ghost"])] }

/-- State with a dead character, as in the R3 unit tests. -/
def c3State : CanonicalState :=
  { stateA with entities := { stateA.entities with
      characters := stateA.entities.characters ++
        [("dead_char", mkChar "dead_char" "已死角色" "luoyang" false)] } }

/-- A REVIVAL event whose `actors` include the currently-dead subject. -/
def c3Event : Event :=
  mkEvent "evt_1_c3" 1 2 "luoyang" ["dead_char"] .REVIVAL "已死角色被救活"
    [("character_id", .vstr "dead_char")]
    { emptyPatch with entity_updates :=
        [("dead_char", mkEU .character "dead_char"
           [("alive", .vbool true)])] }

/-- C5 counterexample events: a turn-1 event with order 10 followed by a
turn-2 event with order 5; both orders are at or above the anchor (order 0),
there is no same-turn inversion and the projected anchor is unchanged. -/
def c5State : CanonicalState :=
  { stateA with time :=
      { calendar := "初始时间"
        anchor := { label := "初始时间", order := 0 } } }

def c5Event1 : Event :=
  mkEvent "evt_1_c5a" 1 10 "luoyang" [] .OTHER "第一轮事件" []
    { emptyPatch with entity_updates :=
        [("caocao", mkEU .character "caocao"
           [("metadata", .vmeta [("note", "a")])])] }

def c5Event2 : Event :=
  mkEvent "evt_2_c5b" 2 5 "luoyang" [] .OTHER "第二轮事件" []
    { emptyPatch with entity_updates :=
        [("caocao", mkEU .character "caocao"
           [("metadata", .vmeta [("note", "b")])])] }

/-- C6 counterexample: a state already at turn 5 and an event of turn 3. -/
def c6State : CanonicalState :=
  { stateA with meta := { stateA.meta with turn := 5 } }

def c6Event : Event :=
  mkEvent "evt_3_c6" 3 2 "luoyang" [] .OTHER "旧轮次事件" []
    { emptyPatch with entity_updates :=
        [("caocao", mkEU .character "caocao"
           [("metadata", .vmeta [("note", "c")])])] }

/-- C7 failing input: a recognised closed-set player update key. -/
def c7Event : Event :=
  mkEvent "evt_1_c7" 1 2 "luoyang" [] .OTHER "玩家拾取物品" []
    { emptyPatch with player_updates := some [("inventory_add", .vlist ["sword_001"])] }

/-- C9 counterexample state: liubei already holds an item stored at luoyang
(one fixable R2 warning in the projection). -/
def c9State : CanonicalState :=
  { stateA with entities := { stateA.entities with
      items := stateA.entities.items ++
        [("bow_001", mkItem "bow_001" "宝雕弓" (some "liubei") (some "luoyang") false)] } }

/-- C9 counterexample event: creates a fresh item owned by caocao but located
at xuchang.  The applier materialises it (mismatched), the gate projection
does not, so the synthesised fixes cannot repair it. -/
def c9Event : Event :=
  mkEvent "evt_1_c9" 1 2 "luoyang" [] .ITEM_CREATE "打造新刀" [("item_id", .vstr "knife_001")]
    { emptyPatch with entity_updates :=
        [("knife_001", mkEU .item "knife_001"
           [("name", .vstr "新刀"), ("owner_id", .vstr "caocao"),
                       ("location_id", .vstr "xuchang")])] }

/-- C9 witness event: hands the sword to liubei without moving it (the
AUTO_FIX scenario of the unit tests). -/
def c9wEvent : Event :=
  mkEvent "evt_1_c9w" 1 2 "luoyang" [] .OWNERSHIP_CHANGE "曹操将青釭剑交给刘备"
    [("item_id", .vstr "sword_001"), ("old_owner_id", .vstr "caocao"),
     ("new_owner_id", .vstr "liubei")]
    { emptyPatch with entity_updates :=
        [("sword_001", mkEU .item "sword_001"
           [("owner_id", .vstr "liubei")])] }

/-- C10 counterexample state: the unique-item id is itself the literal
多重归属, which R1 interpolates into its message. -/
def c10State : CanonicalState :=
  { stateA with constraints := { stateA.constraints with
      unique_item_ids := ["多重归属"] } }

def c10Event1 : Event :=
  mkEvent "evt_1_c10a" 1 2 "luoyang" [] .OTHER "赠与甲" []
    { emptyPatch with entity_updates :=
        [("多重归属", mkEU .item "多重归属"
           [("owner_id", .vstr "caocao")])] }

def c10Event2 : Event :=
  mkEvent "evt_1_c10b" 1 2 "luoyang" [] .OTHER "赠与乙" []
    { emptyPatch with entity_updates :=
        [("多重归属", mkEU .item "多重归属"
           [("owner_id", .vstr "liubei")])] }

/-- C8 counterexample patch: the only content is an *empty* quest-update
list. -/
def c8Patch : StatePatch :=
  { emptyPatch with quest_updates := some [] }

/-- Last event id threaded by the `apply_multiple_patches` loop. -/
def lastEventIdFrom (d : Option String) : List Event → Option String
  | [] => d
  | e :: r => lastEventIdFrom (some e.event_id) r

/-- Extract the state of a successful computation (used to name the concrete
states appearing in witnesses and counterexamples). -/
def exOk (x : Except String CanonicalState) (d : CanonicalState) : CanonicalState :=
  x.toOption.getD d

def c1Temp : CanonicalState := exOk (apply_patches_to_state stateA [c1Event]) stateA

def c1Applied : CanonicalState := exOk (foldApply stateA [c1Event]) stateA

def c2Applied : CanonicalState := exOk (apply_state_patch c2State c2Patch "evt_x" 1) c2State

def c5Temp : CanonicalState := exOk (apply_patches_to_state c5State [c5Event1, c5Event2]) c5State

def c6Folded : CanonicalState := exOk (foldApply c6State [c6Event]) c6State

def c6Batched : CanonicalState := exOk (apply_multiple_patches c6State [c6Event]) c6State

def emptyResult : ValidationResult :=
  { action := .PASS, reasons := [], violations := [], fixes := none,
    questions := none }

def exOkR (x : Except String ValidationResult) : ValidationResult :=
  x.toOption.getD emptyResult

def c9Result : ValidationResult := exOkR (validate_event_patch c9State [c9Event])

def c9Batched : CanonicalState := exOk (apply_multiple_patches c9State [c9Event]) c9State

/-- The state after applying the C9 batch and then the synthesised fixes with
the §4.1 applier, as the AUTO_FIX path of the service layer does. -/
def c9Fixed : CanonicalState :=
  exOk (apply_state_patch c9Batched (c9Result.fixes.getD emptyPatch) "evt_fix" 1) c9State

def c9wResult : ValidationResult := exOkR (validate_event_patch stateA [c9wEvent])

def c9wTemp : CanonicalState := exOk (apply_patches_to_state stateA [c9wEvent]) stateA

def c10Result : ValidationResult :=
  exOkR (validate_event_patch c10State [c10Event1, c10Event2])

-- ==================== Helper lemmas ====================


/-- The shape of every accumulator entry built by `_build_fix_patch`: an item
update keyed by an existing item, setting `location_id` to the location the
fold recomputes from that item\x27s owner. -/
def FixShape (t : CanonicalState) (kv : String × EntityUpdate) : Prop :=
  ∃ item o cl, kvLookup t.entities.items kv.1 = some item ∧
    item.owner_id = some o ∧ (o != "") = true ∧
    ownerExpectedLocation t.entities.characters t.entities.locations o = some cl ∧
    kv.2 = { entity_type := EType.item, entity_id := kv.1,
             updates := [("location_id", Val.vstr cl)] }

theorem kvLookup_kvSet [BEq κ] [LawfulBEq κ] (l : KVList κ α) (k x : κ) (v : α) :
    kvLookup (kvSet l k v) x = if k == x then some v else kvLookup l x := by
  induction l with
  | nil => simp [kvSet, kvLookup]
  | cons a r ih =>
    obtain ⟨ak, av⟩ := a
    by_cases hak : ak = k
    · subst hak
      simp only [kvSet, beq_self_eq_true, if_true, kvLookup]
      by_cases hx : ak = x
      · subst hx
        simp
      · have hxb : (ak == x) = false := beq_eq_false_iff_ne.mpr hx
        simp [hxb]
    · have hakb : (ak == k) = false := beq_eq_false_iff_ne.mpr hak
      simp only [kvSet, hakb, Bool.false_eq_true, if_false, kvLookup, ih]
      by_cases hx : ak = x
      · subst hx
        have hka : (k == ak) = false := beq_eq_false_iff_ne.mpr (Ne.symm hak)
        simp [hka]
      · have hxb : (ak == x) = false := beq_eq_false_iff_ne.mpr hx
        simp [hxb]

theorem kvContains_kvSet [BEq κ] [LawfulBEq κ] (l : KVList κ α) (k x : κ) (v : α) :
    kvContains (kvSet l k v) x = (k == x || kvContains l x) := by
  simp only [kvContains, kvLookup_kvSet]
  by_cases h : k == x <;> simp [h]

theorem kvContains_createMissing_of_contains (L : KVList String Location)
    (req : List String) (x : String) (h : kvContains L x = true) :
    kvContains (createMissingLocations L req) x = true := by
  induction req generalizing L with
  | nil => simpa [createMissingLocations]
  | cons hd tl ih =>
    simp only [createMissingLocations, List.foldl_cons]
    by_cases hc : kvContains L hd
    · simp only [hc, if_true]
      exact ih L h
    · simp only [hc, Bool.false_eq_true, if_false]
      exact ih _ (by simp [kvContains_kvSet, h])

theorem kvContains_createMissing_of_mem (L : KVList String Location)
    (req : List String) (x : String) (h : x ∈ req) :
    kvContains (createMissingLocations L req) x = true := by
  induction req generalizing L with
  | nil => cases h
  | cons hd tl ih =>
    simp only [createMissingLocations, List.foldl_cons]
    rcases List.mem_cons.mp h with rfl | hmem
    · by_cases hc : kvContains L x
      · simp only [hc, if_true]
        exact kvContains_createMissing_of_contains L tl x hc
      · simp only [hc, Bool.false_eq_true, if_false]
        exact kvContains_createMissing_of_contains _ tl x
          (by simp [kvContains_kvSet])
    · by_cases hc : kvContains L hd <;> simp only [hc, if_true, Bool.false_eq_true, if_false] <;>
        exact ih _ hmem

-- ==================== Claim counterexamples and failing-input evaluations ====================

/-- Claim C8 counterexample: a `state_patch` whose only content is an *empty*
`quest_updates` list passes `validate_traceability` (the event is accepted at
construction), while the claim says it is rejected. -/
theorem c8_counterexample :
    c8Patch.entity_updates = [] ∧ c8Patch.time_update = none ∧
    c8Patch.quest_updates = some [] ∧ c8Patch.constraint_additions = [] ∧
    c8Patch.player_updates = none ∧ validate_traceability c8Patch = true := by
  decide

/-- Claim C3: the code evaluated at the failing input.  `c3Event` is a REVIVAL
event whose `actors` contain the currently-dead subject; R3 still emits a
dead-actor error, because the source's `continue` for DEATH/REVIVAL events is
the last statement of the loop body and therefore dead code. -/
theorem c3_theorem :
    c3Event.type = EventType.REVIVAL ∧
    c3Event.who.actors = ["dead_char"] ∧
    (kvLookup c3State.entities.characters "dead_char").map Character.alive =
      some false ∧
    (check_r3 c3State c3State [c3Event]).map RuleViolation.entity_id =
      [some "dead_char"] := by
  decide

/-- Claim C7: the code evaluated at the failing input.  A batch whose
`player_updates` uses the recognised key `inventory_add` makes
`validate_event_patch` raise (pydantic v2 `setattr` of an unknown
`PlayerState` field inside `_apply_patches_to_state`), even though the §4.1
applier accepts the very same patch. -/
theorem c7_theorem :
    validate_event_patch stateA [c7Event] =
      Except.error "PlayerState object has no field inventory_add" ∧
    (apply_state_patch stateA c7Event.state_patch "evt_x" 1).isOk = true := by
  decide

/-- Claim C1 counterexample: the gate projection and the §4.1 applier diverge
on a patch that creates a fresh item — the applier materialises `new_item`,
the projection drops it. -/
theorem c1_counterexample :
    apply_patches_to_state stateA [c1Event] = Except.ok c1Temp ∧
    foldApply stateA [c1Event] = Except.ok c1Applied ∧
    kvContains c1Temp.entities.items "new_item" = false ∧
    kvContains c1Applied.entities.items "new_item" = true ∧
    c1Temp ≠ c1Applied := by
  decide

/-- Claim C2 counterexample: applying a `party_add` of an unknown character id
to a state satisfying the §3 invariants yields a state violating them (the
party member does not resolve). -/
theorem c2_counterexample :
    validate_references c2State = true ∧
    apply_state_patch c2State c2Patch "evt_x" 1 = Except.ok c2Applied ∧
    c2Applied.player.party = ["ghost"] ∧
    kvContains c2Applied.entities.characters "ghost" = false ∧
    validate_references c2Applied = false := by
  decide

/-- Claim C5 counterexample: both events' orders are at or above the anchor,
there is no same-turn inversion, and the projected anchor equals the current
anchor — yet R7 flags the later-turn event with the smaller order, because
the first check walks the batch sorted by `(turn, order)` against a running
maximum. -/
theorem c5_counterexample :
    ([c5Event1, c5Event2].all
      (fun e => c5State.time.anchor.order ≤ e.time.order)) = true ∧
    r7NoSameTurnInversion [c5Event1, c5Event2] = true ∧
    apply_patches_to_state c5State [c5Event1, c5Event2] = Except.ok c5Temp ∧
    c5State.time.anchor.order ≤ c5Temp.time.anchor.order ∧
    check_r7 c5State c5Temp [c5Event1, c5Event2] ≠ [] := by
  decide

/-- Claim C6 counterexample: a single event whose turn (3) is below the
state's turn (5).  The fold of `apply` ends at `meta.turn = 3`, while
`apply_many` overwrites it with the accumulated maximum 5, so the two
disagree. -/
theorem c6_counterexample :
    foldApply c6State [c6Event] = Except.ok c6Folded ∧
    apply_multiple_patches c6State [c6Event] = Except.ok c6Batched ∧
    c6Folded.meta.turn = 3 ∧ c6Batched.meta.turn = 5 ∧
    c6Folded ≠ c6Batched := by
  decide

/-- Claim C9 counterexample: the batch creates a mismatched item that the
gate projection never sees, so the AUTO_FIX fixes only repair the old
mismatch; applying the batch (§4.1) and then the fixes leaves an R2
violation on the created item. -/
theorem c9_counterexample :
    validate_event_patch c9State [c9Event] = Except.ok c9Result ∧
    c9Result.action = GateAction.AUTO_FIX ∧
    apply_multiple_patches c9State [c9Event] = Except.ok c9Batched ∧
    apply_state_patch c9Batched (c9Result.fixes.getD emptyPatch) "evt_fix" 1 =
      Except.ok c9Fixed ∧
    (check_r2 c9State c9Fixed [c9Event]).map RuleViolation.entity_id =
      [some "knife_001"] := by
  decide

/-- Claim C10 counterexample: a batch whose only error-severity violations are
R1 multi-ownership errors, yet the action is ASK_USER — the unique item id
多重归属 is interpolated into R1's message, which the decision inspects. -/
theorem c10_counterexample :
    validate_event_patch c10State [c10Event1, c10Event2] = Except.ok c10Result ∧
    (c10Result.violations.map (fun v => (v.rule_id, v.severity))) =
      [("R1", Severity.error)] ∧
    c10Result.action = GateAction.ASK_USER := by
  decide

-- ==================== C8 amended ====================

/-- Claim C8 (amended): event construction succeeds exactly when the patch
has a non-empty `entity_updates` dict, a time update, a *present* (possibly
empty) `quest_updates` list, a non-empty `constraint_additions` list, or a
*present* (possibly empty) `player_updates` mapping. -/
theorem c8_amended (p : StatePatch) :
    validate_traceability p = true ↔
      (p.entity_updates ≠ [] ∨ p.time_update ≠ none ∨
       (∃ l, p.quest_updates = some l) ∨ p.constraint_additions ≠ [] ∨
       (∃ m, p.player_updates = some m)) := by
  rcases p with ⟨eu, tu, qu, ca, pu⟩
  simp only [validate_traceability]
  cases eu <;> cases tu <;> cases qu <;> cases ca <;> cases pu <;>
    simp [List.isEmpty]

-- ==================== C4 ====================

theorem filter_warning_eq_self_of_no_error (vs : List RuleViolation)
    (h : vs.filter (fun v => v.severity == Severity.error) = []) :
    vs.filter (fun v => v.severity == Severity.warning) = vs := by
  have hmem : ∀ v ∈ vs, ¬((fun v => v.severity == Severity.error) v = true) :=
    List.filter_eq_nil_iff.mp h
  apply List.filter_eq_self.mpr
  intro v hv
  have hve := hmem v hv
  cases hsev : v.severity with
  | error => exact absurd (by simp [hsev]) hve
  | warning => simp [hsev]

theorem length_filter_eq_iff_all (l : List α) (p : α → Bool) :
    (l.filter p).length = l.length ↔ ∀ a ∈ l, p a = true := by
  constructor
  · intro h
    exact List.filter_eq_self.mp (List.Sublist.eq_of_length (List.filter_sublist l) h)
  · intro h
    rw [List.filter_eq_self.mpr h]

/-- Claim C4: the gate's action decision is exactly the procedure stated in
the claim — PASS on no violations; ASK_USER (one clarification question per
error) when an error's message mentions 多重归属 or 死亡角色; REWRITE with
"R\x7bn\x7d: \x7bmessage\x7d" reasons on other errors; AUTO_FIX with the
synthesised fixes patch when there are no errors and every warning is
fixable; REWRITE otherwise. -/
theorem c4_theorem (vs : List RuleViolation) (cur : CanonicalState)
    (temp : Option CanonicalState) :
    determine_action vs cur temp = spec_decision vs cur temp := by
  unfold determine_action spec_decision
  by_cases h0 : vs.isEmpty
  · simp [h0]
  · by_cases hlit : (vs.filter (fun v => v.severity == Severity.error)).any
        (fun v => strContainsB v.message "多重归属" ||
                  strContainsB v.message "死亡角色")
    · have hne : ((vs.filter (fun v => v.severity == Severity.error)).isEmpty) = false := by
        rcases List.any_eq_true.mp hlit with ⟨v, hv, _⟩
        exact Bool.eq_false_iff.mpr
          (fun hc => List.ne_nil_of_mem hv (List.isEmpty_iff.mp hc))
      simp [h0, hlit, hne]
    · by_cases hne : ((vs.filter (fun v => v.severity == Severity.error)).isEmpty)
      · have herrnil : vs.filter (fun v => v.severity == Severity.error) = [] :=
          List.isEmpty_iff.mp hne
        have hwarn : vs.filter (fun v => v.severity == Severity.warning) = vs :=
          filter_warning_eq_self_of_no_error vs herrnil
        by_cases hfix : ∀ v ∈ vs, v.fixable = true
        · have hlen : (vs.filter (fun v => v.fixable)).length =
              (vs.filter (fun v => v.severity == Severity.warning)).length := by
            rw [hwarn]
            exact (length_filter_eq_iff_all vs _).mpr hfix
          have hwne : ((vs.filter (fun v => v.severity == Severity.warning)).isEmpty) = false := by
            rw [hwarn]
            simpa using h0
          have hallfix : (vs.filter (fun v => v.severity == Severity.warning)).all
              (fun v => v.fixable) = true := by
            rw [hwarn]
            exact List.all_eq_true.mpr hfix
          simp [h0, hlit, hne, hwne, hlen, hallfix]
        · have hlen : ¬((vs.filter (fun v => v.fixable)).length =
              (vs.filter (fun v => v.severity == Severity.warning)).length) := by
            rw [hwarn]
            intro hc
            exact hfix ((length_filter_eq_iff_all vs _).mp hc)
          have hnotall : (vs.filter (fun v => v.severity == Severity.warning)).all
              (fun v => v.fixable) = false := by
            rw [hwarn]
            exact Bool.eq_false_iff.mpr (fun hc => hfix (List.all_eq_true.mp hc))
          simp [h0, hlit, hne, hlen, hnotall]
      · simp [h0, hlit, hne]

-- ==================== C2 amended ====================

theorem mem_required_player (s : CanonicalState)
    (h : s.player.location_id ≠ "") :
    s.player.location_id ∈ requiredLocationIds s := by
  unfold requiredLocationIds
  apply List.mem_append_left
  apply List.mem_append_left
  simp [h]

theorem mem_required_char (s : CanonicalState) (kv : String × Character)
    (hkv : kv ∈ s.entities.characters) (h : kv.2.location_id ≠ "") :
    kv.2.location_id ∈ requiredLocationIds s := by
  unfold requiredLocationIds
  apply List.mem_append_left
  apply List.mem_append_right
  exact List.mem_filterMap.mpr ⟨kv, hkv, by simp [h]⟩

theorem mem_required_item_loc (s : CanonicalState) (kv : String × Item)
    (hkv : kv ∈ s.entities.items) (l : String)
    (hl : kv.2.location_id = some l) (h : l ≠ "") :
    l ∈ requiredLocationIds s := by
  unfold requiredLocationIds
  apply List.mem_append_right
  refine List.mem_flatMap.mpr ⟨kv, hkv, ?_⟩
  apply List.mem_append_left
  simp [itemRequiredIds, hl, h]

theorem mem_required_item_owner (s : CanonicalState) (kv : String × Item)
    (hkv : kv ∈ s.entities.items) (o : String)
    (ho : kv.2.owner_id = some o) (h : o ≠ "")
    (hnl : kvContains s.entities.locations o = false)
    (hnc : kvContains s.entities.characters o = false) :
    o ∈ requiredLocationIds s := by
  unfold requiredLocationIds
  apply List.mem_append_right
  refine List.mem_flatMap.mpr ⟨kv, hkv, ?_⟩
  apply List.mem_append_right
  simp [itemRequiredIds, ho, h, hnl, hnc]

/-- After the auto-materialiser, every truthy location reference resolves. -/
theorem location_refs_ok_ensure (s : CanonicalState) :
    location_refs_ok (ensure_location_references s) = true := by
  have hreq : ∀ x ∈ requiredLocationIds s,
      kvContains (createMissingLocations s.entities.locations
        (requiredLocationIds s)) x = true :=
    fun x hx => kvContains_createMissing_of_mem _ _ x hx
  have hmono : ∀ x, kvContains s.entities.locations x = true →
      kvContains (createMissingLocations s.entities.locations
        (requiredLocationIds s)) x = true :=
    fun x hx => kvContains_createMissing_of_contains _ _ x hx
  simp only [location_refs_ok, ensure_location_references, Bool.and_eq_true,
    List.all_eq_true]
  refine ⟨⟨?_, ?_⟩, ?_⟩
  · by_cases hp : s.player.location_id = ""
    · simp [hp]
    · have := hreq _ (mem_required_player s hp)
      simp [this]
  · intro kv hkv
    by_cases hl : kv.2.location_id = ""
    · simp [hl]
    · have := hreq _ (mem_required_char s kv hkv hl)
      simp [this]
  · intro kv hkv
    refine ⟨?_, ?_⟩
    · cases hloc : kv.2.location_id with
      | none => simp
      | some l =>
        by_cases hl : l = ""
        · simp [hl]
        · have := hreq _ (mem_required_item_loc s kv hkv l hloc hl)
          simp [this]
    · cases hown : kv.2.owner_id with
      | none => simp
      | some o =>
        by_cases ho : o = ""
        · simp [ho]
        · cases hnc : kvContains s.entities.characters o with
          | true => simp [hnc]
          | false =>
            cases hnl : kvContains s.entities.locations o with
            | true =>
              have := hmono o hnl
              simp [this]
            | false =>
              have := hreq _ (mem_required_item_owner s kv hkv o hown ho hnl hnc)
              simp [this]

theorem apply_state_patch_shape (s : CanonicalState) (p : StatePatch)
    (eid : String) (n : Nat) (s' : CanonicalState)
    (h : apply_state_patch s p eid n = .ok s') :
    ∃ s2, s' = applyPatchRest s2 p eid n := by
  unfold apply_state_patch at h
  cases h1 : applyEntityUpdates s p.entity_updates with
  | error m => simp only [h1] at h; cases h
  | ok s1 =>
    simp only [h1] at h
    cases h2 : applyPlayerStage s1 p with
    | error m => simp only [h2] at h; cases h
    | ok s2 =>
      simp only [h2, Except.ok.injEq] at h
      exact ⟨s2, h.symm⟩

theorem applyPatchRest_is_ensure (s : CanonicalState) (p : StatePatch)
    (eid : String) (n : Nat) :
    ∃ X, applyPatchRest s p eid n = ensure_location_references X ∧
      X.meta.turn = n ∧ X.meta.last_event_id = some eid := by
  unfold applyPatchRest
  exact ⟨_, rfl, rfl, rfl⟩

/-- Claim C2 (amended): every state returned by `apply_state_patch` satisfies
the location-reference fragment of the §3 invariants (the part restored by
the auto-materialiser); the remaining invariants are not re-established. -/
theorem c2_amended (s : CanonicalState) (p : StatePatch) (eid : String)
    (n : Nat) (s' : CanonicalState)
    (h : apply_state_patch s p eid n = Except.ok s') :
    location_refs_ok s' = true := by
  obtain ⟨s2, rfl⟩ := apply_state_patch_shape s p eid n s' h
  obtain ⟨X, hX, -, -⟩ := applyPatchRest_is_ensure s2 p eid n
  rw [hX]
  exact location_refs_ok_ensure X

/-- Claim C2 witness: the amended theorem at the concrete party-add input. -/
theorem c2_amended_witness : location_refs_ok c2Applied = true :=
  c2_amended c2State c2Patch "evt_x" 1 c2Applied (by decide)

-- ==================== C5 amended ====================

theorem r7Walk_nil_iff (l : List Event) : ∀ m,
    (r7Walk m l = [] ↔ r7MonotoneFrom m l = true) := by
  induction l with
  | nil => intro m; simp [r7Walk, r7MonotoneFrom]
  | cons e r ih =>
    intro m
    simp only [r7Walk, r7MonotoneFrom, List.append_eq_nil, Bool.and_eq_true]
    constructor
    · rintro ⟨h1, h2⟩
      refine ⟨?_, (ih _).mp h2⟩
      by_cases hlt : e.time.order < m
      · simp [hlt] at h1
      · simpa using Nat.not_lt.mp hlt
    · rintro ⟨h1, h2⟩
      have hle : m ≤ e.time.order := by simpa using h1
      refine ⟨?_, (ih _).mpr h2⟩
      simp [Nat.not_lt.mpr hle]

theorem r7FirstInversion_none_iff (e : Event) (l : List Event) :
    r7FirstInversion e l = none ↔
      l.all (fun f => !(e.turn == f.turn && f.time.order < e.time.order)) = true := by
  induction l with
  | nil => simp [r7FirstInversion]
  | cons f r ih =>
    by_cases hp : e.turn = f.turn ∧ f.time.order < e.time.order
    · constructor
      · intro h
        exact absurd h (by simp [r7FirstInversion, hp])
      · intro h
        exfalso
        simp only [List.all_cons, Bool.and_eq_true] at h
        rcases h with ⟨h1, -⟩
        simp [hp.1, hp.2] at h1
    · have hstep : r7FirstInversion e (f :: r) = r7FirstInversion e r := by
        simp [r7FirstInversion, hp]
      rw [hstep, ih]
      simp only [List.all_cons, Bool.and_eq_true]
      constructor
      · intro h
        refine ⟨?_, h⟩
        have hb : (e.turn == f.turn && decide (f.time.order < e.time.order)) = false := by
          by_cases ht : e.turn = f.turn
          · have hnl : ¬ f.time.order < e.time.order := fun hlt => hp ⟨ht, hlt⟩
            simp [ht, hnl]
          · simp [ht]
        simp [hb]
      · rintro ⟨-, h⟩
        exact h

theorem r7Pairs_nil_iff (l : List Event) :
    r7Pairs l = [] ↔ r7NoSameTurnInversion l = true := by
  induction l with
  | nil => simp [r7Pairs, r7NoSameTurnInversion]
  | cons e r ih =>
    simp only [r7Pairs, r7NoSameTurnInversion, List.append_eq_nil,
      Bool.and_eq_true]
    constructor
    · rintro ⟨h1, h2⟩
      refine ⟨?_, ih.mp h2⟩
      cases hf : r7FirstInversion e r with
      | none => exact (r7FirstInversion_none_iff e r).mp hf
      | some f => simp [hf] at h1
    · rintro ⟨h1, h2⟩
      refine ⟨?_, ih.mpr h2⟩
      rw [(r7FirstInversion_none_iff e r).mpr h1]

/-- Claim C5 (amended): R7 emits no violations iff (i') walking the batch
sorted stably by `(turn, time.order)` no order drops below the running
maximum seeded with the anchor order, (ii) there is no same-turn inversion in
input order, and (iii) the projected anchor is at least the current anchor.
Clause (i') strengthens the claim's clause (i): a later-turn event whose
order is at or above the anchor but below an earlier event's higher order is
flagged. -/
theorem c5_amended (cur temp : CanonicalState) (evs : List Event) :
    check_r7 cur temp evs = [] ↔
      (r7MonotoneFrom cur.time.anchor.order (sortEventsByTurnOrder evs) = true ∧
       r7NoSameTurnInversion evs = true ∧
       cur.time.anchor.order ≤ temp.time.anchor.order) := by
  unfold check_r7
  simp only [List.append_eq_nil]
  rw [r7Walk_nil_iff, r7Pairs_nil_iff]
  constructor
  · rintro ⟨⟨h1, h2⟩, h3⟩
    refine ⟨h1, h2, ?_⟩
    by_cases hlt : temp.time.anchor.order < cur.time.anchor.order
    · simp [hlt] at h3
    · exact Nat.not_lt.mp hlt
  · rintro ⟨h1, h2, h3⟩
    exact ⟨⟨h1, h2⟩, by simp [Nat.not_lt.mpr h3]⟩

-- ==================== C6 amended ====================

theorem createMissing_noop (L : KVList String Location) (req : List String)
    (h : ∀ x ∈ req, kvContains L x = true) :
    createMissingLocations L req = L := by
  induction req with
  | nil => rfl
  | cons hd tl ih =>
    simp only [createMissingLocations, List.foldl_cons, h hd (by simp),
      if_true]
    exact ih (fun x hx => h x (by simp [hx]))

theorem mem_required_elim (s : CanonicalState) (x : String)
    (h : x ∈ requiredLocationIds s) :
    (x = s.player.location_id ∧ x ≠ "") ∨
    (∃ kv ∈ s.entities.characters, x = kv.2.location_id ∧ x ≠ "") ∨
    (∃ kv ∈ s.entities.items, kv.2.location_id = some x ∧ x ≠ "") ∨
    (∃ kv ∈ s.entities.items, kv.2.owner_id = some x ∧ x ≠ "" ∧
      kvContains s.entities.locations x = false ∧
      kvContains s.entities.characters x = false) := by
  unfold requiredLocationIds at h
  rcases List.mem_append.mp h with h1 | h2
  · rcases List.mem_append.mp h1 with hp | hc
    · left
      by_cases he : s.player.location_id = ""
      · simp [he] at hp
      · simp [he] at hp
        exact ⟨hp, by simp [hp, he]⟩
    · right; left
      rcases List.mem_filterMap.mp hc with ⟨kv, hkv, hx⟩
      by_cases he : kv.2.location_id = ""
      · simp [he] at hx
      · simp [he] at hx
        exact ⟨kv, hkv, hx.symm, by simp [← hx, he]⟩
  · rcases List.mem_flatMap.mp h2 with ⟨kv, hkv, hx⟩
    rcases List.mem_append.mp hx with hl | ho
    · right; right; left
      refine ⟨kv, hkv, ?_⟩
      cases hloc : kv.2.location_id with
      | none => simp [hloc] at hl
      | some l =>
        by_cases he : l = ""
        · simp [hloc, he] at hl
        · simp [hloc, he] at hl
          subst hl
          exact ⟨rfl, he⟩
    · right; right; right
      refine ⟨kv, hkv, ?_⟩
      cases hown : kv.2.owner_id with
      | none => simp [hown] at ho
      | some o =>
        simp only [hown] at ho
        by_cases hcnd : (o != "" && !kvContains s.entities.locations o &&
            !kvContains s.entities.characters o) = true
        · simp only [hcnd, if_true, List.mem_singleton] at ho
          subst ho
          simp only [Bool.and_eq_true, bne_iff_ne, ne_eq,
            Bool.not_eq_true'] at hcnd
          exact ⟨rfl, hcnd.1.1, hcnd.1.2, hcnd.2⟩
        · simp [hcnd] at ho

theorem ensure_entities_stable (s : CanonicalState) :
    (ensure_location_references s).entities.characters = s.entities.characters ∧
    (ensure_location_references s).entities.items = s.entities.items ∧
    (ensure_location_references s).player = s.player ∧
    (ensure_location_references s).meta = s.meta ∧
    (ensure_location_references s).time = s.time := by
  simp [ensure_location_references]

theorem ensure_idem (s : CanonicalState) :
    ensure_location_references (ensure_location_references s) =
      ensure_location_references s := by
  have hreq : ∀ x ∈ requiredLocationIds s,
      kvContains (ensure_location_references s).entities.locations x = true :=
    fun x hx => kvContains_createMissing_of_mem _ _ x hx
  have hmono : ∀ x, kvContains s.entities.locations x = true →
      kvContains (ensure_location_references s).entities.locations x = true :=
    fun x hx => kvContains_createMissing_of_contains _ _ x hx
  have hall : ∀ x ∈ requiredLocationIds (ensure_location_references s),
      kvContains (ensure_location_references s).entities.locations x = true := by
    intro x hx
    rcases mem_required_elim _ x hx with hpl | hch | hil | hio
    · rcases hpl with ⟨he, hne⟩
      have he' : x = s.player.location_id := he
      subst he'
      exact hreq _ (mem_required_player s hne)
    · rcases hch with ⟨kv, hkv, he, hne⟩
      have hkv' : kv ∈ s.entities.characters := hkv
      subst he
      exact hreq _ (mem_required_char s kv hkv' hne)
    · rcases hil with ⟨kv, hkv, he, hne⟩
      have hkv' : kv ∈ s.entities.items := hkv
      exact hreq _ (mem_required_item_loc s kv hkv' x he hne)
    · rcases hio with ⟨kv, hkv, he, hne, hnl, hnc⟩
      have hkv' : kv ∈ s.entities.items := hkv
      have hnc' : kvContains s.entities.characters x = false := hnc
      by_cases hsl : kvContains s.entities.locations x = true
      · rw [hmono x hsl] at hnl
        cases hnl
      · have hmem : x ∈ requiredLocationIds s :=
          mem_required_item_owner s kv hkv' x he hne
            (Bool.eq_false_iff.mpr hsl) hnc'
        rw [hreq x hmem] at hnl
        cases hnl
  conv =>
    lhs
    rw [ensure_location_references]
  rw [createMissing_noop _ _ hall]

theorem ensure_meta_comm (s : CanonicalState) (M : MetaInfo) :
    ensure_location_references { s with meta := M } =
      { ensure_location_references s with meta := M } := rfl

theorem apply_state_patch_meta (s : CanonicalState) (p : StatePatch)
    (eid : String) (n : Nat) (s' : CanonicalState)
    (h : apply_state_patch s p eid n = Except.ok s') :
    s'.meta.turn = n ∧ s'.meta.last_event_id = some eid ∧
      ensure_location_references s' = s' := by
  obtain ⟨s2, rfl⟩ := apply_state_patch_shape s p eid n s' h
  obtain ⟨X, hX, ht, hl⟩ := applyPatchRest_is_ensure s2 p eid n
  rw [hX]
  have hm : (ensure_location_references X).meta = X.meta :=
    (ensure_entities_stable X).2.2.2.1
  exact ⟨by rw [hm, ht], by rw [hm, hl], ensure_idem X⟩

theorem ampGo_eq (evs : List Event) : ∀ (cur : CanonicalState) (maxT : Nat)
    (lastId : Option String),
    ampGo cur maxT lastId evs = (foldApply cur evs).map
      (fun u => (u, evs.foldl (fun m e => max m e.turn) maxT,
                 lastEventIdFrom lastId evs)) := by
  induction evs with
  | nil => intro cur maxT lastId; rfl
  | cons e r ih =>
    intro cur maxT lastId
    simp only [ampGo, foldApply]
    cases h : apply_state_patch cur e.state_patch e.event_id e.turn with
    | error m => rfl
    | ok s1 => simpa [List.foldl_cons, lastEventIdFrom] using ih s1 (max maxT e.turn) (some e.event_id)

theorem foldApply_last_event_id (evs : List Event) :
    ∀ (s u : CanonicalState), foldApply s evs = Except.ok u →
      u.meta.last_event_id = lastEventIdFrom s.meta.last_event_id evs := by
  induction evs with
  | nil =>
    intro s u h
    cases h
    rfl
  | cons e r ih =>
    intro s u h
    simp only [foldApply] at h
    cases ha : apply_state_patch s e.state_patch e.event_id e.turn with
    | error m => rw [ha] at h; cases h
    | ok s1 =>
      rw [ha] at h
      have hm := apply_state_patch_meta s _ _ _ s1 ha
      rw [ih s1 u h, hm.2.1]
      rfl

theorem foldApply_ensure_fixed (evs : List Event) (hne : evs ≠ []) :
    ∀ (s u : CanonicalState), foldApply s evs = Except.ok u →
      ensure_location_references u = u := by
  induction evs with
  | nil => exact absurd rfl hne
  | cons e r ih =>
    intro s u h
    simp only [foldApply] at h
    cases ha : apply_state_patch s e.state_patch e.event_id e.turn with
    | error m => rw [ha] at h; cases h
    | ok s1 =>
      rw [ha] at h
      cases r with
      | nil =>
        simp only [foldApply, Except.ok.injEq] at h
        rw [← h]
        exact (apply_state_patch_meta s _ _ _ s1 ha).2.2
      | cons f t => exact ih (by simp) s1 u h

/-- Claim C6 (amended): `apply_multiple_patches` equals the plain fold of
`apply_state_patch` on every component except `meta.turn`, which it overwrites
with `max(state.meta.turn, max event turn)`; both computations fail with the
same error. -/
theorem c6_amended (s : CanonicalState) (evs : List Event) (hne : evs ≠ []) :
    (∀ u, foldApply s evs = Except.ok u →
      apply_multiple_patches s evs =
        Except.ok { u with meta := { u.meta with turn := maxTurnOf s evs } }) ∧
    (∀ m, foldApply s evs = Except.error m →
      apply_multiple_patches s evs = Except.error m) := by
  have hemp : evs.isEmpty = false := by
    cases evs with
    | nil => exact absurd rfl hne
    | cons e r => rfl
  constructor
  · intro u hu
    unfold apply_multiple_patches
    rw [hemp]
    simp only [Bool.false_eq_true, if_false]
    rw [ampGo_eq, hu]
    simp only [Except.map]
    have hlast : lastEventIdFrom s.meta.last_event_id evs =
        u.meta.last_event_id := (foldApply_last_event_id evs s u hu).symm
    rw [hlast]
    rw [ensure_meta_comm, foldApply_ensure_fixed evs hne s u hu]
    rfl
  · intro m hm
    unfold apply_multiple_patches
    rw [hemp]
    simp only [Bool.false_eq_true, if_false]
    rw [ampGo_eq, hm]
    rfl

/-- Claim C6 witness: the amended equality at the turn-3 event over the
turn-5 state. -/
theorem c6_amended_witness :
    apply_multiple_patches c6State [c6Event] =
      Except.ok { c6Folded with meta :=
        { c6Folded.meta with turn := maxTurnOf c6State [c6Event] } } :=
  (c6_amended c6State [c6Event] (by simp)).1 c6Folded (by decide)

-- ==================== C1 amended ====================

theorem apply_entity_update_eq_project (a : CanonicalState) (k : String)
    (eu : EntityUpdate)
    (h : ((eu.entity_type == EType.character &&
            kvContains a.entities.characters k) ||
          (eu.entity_type == EType.item && kvContains a.entities.items k)) = true) :
    apply_entity_update a k eu =
      (projectEntityUpdate a.entities k eu).map
        (fun ents => { a with entities := ents }) := by
  rw [Bool.or_eq_true, Bool.and_eq_true, Bool.and_eq_true] at h
  rcases h with ⟨hty, hcon⟩ | ⟨hty, hcon⟩
  · have hty' : eu.entity_type = EType.character := by simpa using hty
    rcases Option.isSome_iff_exists.mp hcon with ⟨c, hc⟩
    simp only [apply_entity_update, projectEntityUpdate, hty', hc]
    cases hs : setattrFold setattrChar c eu.updates with
    | ok c' => simp [Bind.bind, Except.bind, hs, Except.map]
    | error m => simp [Bind.bind, Except.bind, hs, Except.map]
  · have hty' : eu.entity_type = EType.item := by simpa using hty
    rcases Option.isSome_iff_exists.mp hcon with ⟨it, hitm⟩
    simp only [apply_entity_update, projectEntityUpdate, hty', hitm]
    cases hs : setattrFold setattrItem it eu.updates with
    | ok it' => simp [Bind.bind, Except.bind, hs, Except.map]
    | error m => simp [Bind.bind, Except.bind, hs, Except.map]

theorem projectEntityUpdate_congr (E F : Entities)
    (hc : E.characters = F.characters) (hi : E.items = F.items)
    (k : String) (eu : EntityUpdate) :
    (∃ m, projectEntityUpdate E k eu = .error m ∧
          projectEntityUpdate F k eu = .error m) ∨
    (∃ E1 F1, projectEntityUpdate E k eu = .ok E1 ∧
       projectEntityUpdate F k eu = .ok F1 ∧
       E1.characters = F1.characters ∧ E1.items = F1.items) := by
  cases hty : eu.entity_type with
  | item =>
    cases hl : kvLookup F.items k with
    | none =>
      have hlE : kvLookup E.items k = none := by rw [hi]; exact hl
      refine Or.inr ⟨E, F, ?_, ?_, hc, hi⟩
      · simp [projectEntityUpdate, hty, hlE]
      · simp [projectEntityUpdate, hty, hl]
    | some it =>
      have hlE : kvLookup E.items k = some it := by rw [hi]; exact hl
      cases hs : setattrFold setattrItem it eu.updates with
      | ok it' =>
        refine Or.inr ⟨{ E with items := kvSet E.items k it' },
                       { F with items := kvSet F.items k it' }, ?_, ?_, hc,
                       by simp [hi]⟩
        · simp [projectEntityUpdate, hty, hlE, Bind.bind, Except.bind, hs]
        · simp [projectEntityUpdate, hty, hl, Bind.bind, Except.bind, hs]
      | error m =>
        refine Or.inl ⟨m, ?_, ?_⟩
        · simp [projectEntityUpdate, hty, hlE, Bind.bind, Except.bind, hs]
        · simp [projectEntityUpdate, hty, hl, Bind.bind, Except.bind, hs]
  | character =>
    cases hl : kvLookup F.characters k with
    | none =>
      have hlE : kvLookup E.characters k = none := by rw [hc]; exact hl
      refine Or.inr ⟨E, F, ?_, ?_, hc, hi⟩
      · simp [projectEntityUpdate, hty, hlE]
      · simp [projectEntityUpdate, hty, hl]
    | some c =>
      have hlE : kvLookup E.characters k = some c := by rw [hc]; exact hl
      cases hs : setattrFold setattrChar c eu.updates with
      | ok c' =>
        refine Or.inr ⟨{ E with characters := kvSet E.characters k c' },
                       { F with characters := kvSet F.characters k c' }, ?_, ?_,
                       by simp [hc], hi⟩
        · simp [projectEntityUpdate, hty, hlE, Bind.bind, Except.bind, hs]
        · simp [projectEntityUpdate, hty, hl, Bind.bind, Except.bind, hs]
      | error m =>
        refine Or.inl ⟨m, ?_, ?_⟩
        · simp [projectEntityUpdate, hty, hlE, Bind.bind, Except.bind, hs]
        · simp [projectEntityUpdate, hty, hl, Bind.bind, Except.bind, hs]
  | location =>
    refine Or.inr ⟨E, F, ?_, ?_, hc, hi⟩ <;> simp [projectEntityUpdate, hty]
  | faction =>
    refine Or.inr ⟨E, F, ?_, ?_, hc, hi⟩ <;> simp [projectEntityUpdate, hty]

theorem projectEntityUpdate_contains (E : Entities) (k : String)
    (eu : EntityUpdate) (E1 : Entities)
    (h : projectEntityUpdate E k eu = .ok E1) :
    (∀ x, kvContains E1.characters x = kvContains E.characters x) ∧
    (∀ x, kvContains E1.items x = kvContains E.items x) := by
  cases hty : eu.entity_type with
  | item =>
    simp only [projectEntityUpdate, hty] at h
    cases hl : kvLookup E.items k with
    | none =>
      simp only [hl, Except.ok.injEq] at h
      subst h
      exact ⟨fun x => rfl, fun x => rfl⟩
    | some it =>
      simp only [hl, Bind.bind, Except.bind] at h
      cases hs : setattrFold setattrItem it eu.updates with
      | error m => simp only [hs] at h; cases h
      | ok it' =>
        simp only [hs, Except.ok.injEq] at h
        subst h
        refine ⟨fun x => rfl, fun x => ?_⟩
        rw [kvContains_kvSet]
        by_cases hx : k = x
        · subst hx
          simp [kvContains, hl]
        · simp [beq_eq_false_iff_ne.mpr hx]
  | character =>
    simp only [projectEntityUpdate, hty] at h
    cases hl : kvLookup E.characters k with
    | none =>
      simp only [hl, Except.ok.injEq] at h
      subst h
      exact ⟨fun x => rfl, fun x => rfl⟩
    | some c =>
      simp only [hl, Bind.bind, Except.bind] at h
      cases hs : setattrFold setattrChar c eu.updates with
      | error m => simp only [hs] at h; cases h
      | ok c' =>
        simp only [hs, Except.ok.injEq] at h
        subst h
        refine ⟨fun x => ?_, fun x => rfl⟩
        rw [kvContains_kvSet]
        by_cases hx : k = x
        · subst hx
          simp [kvContains, hl]
        · simp [beq_eq_false_iff_ne.mpr hx]
  | location =>
    simp only [projectEntityUpdate, hty, Except.ok.injEq] at h
    subst h
    exact ⟨fun x => rfl, fun x => rfl⟩
  | faction =>
    simp only [projectEntityUpdate, hty, Except.ok.injEq] at h
    subst h
    exact ⟨fun x => rfl, fun x => rfl⟩

theorem entityUpdates_agree (ups : KVList String EntityUpdate) :
    ∀ (a : CanonicalState) (E : Entities),
    E.characters = a.entities.characters →
    E.items = a.entities.items →
    (∀ kv ∈ ups, ((kv.2.entity_type == EType.character &&
        kvContains a.entities.characters kv.1) ||
      (kv.2.entity_type == EType.item &&
        kvContains a.entities.items kv.1)) = true) →
    (∃ m, projectEntityUpdates E ups = .error m ∧
          applyEntityUpdates a ups = .error m) ∨
    (∃ E' a', projectEntityUpdates E ups = .ok E' ∧
       applyEntityUpdates a ups = .ok a' ∧
       E'.characters = a'.entities.characters ∧
       E'.items = a'.entities.items ∧
       a'.time = a.time ∧
       (∀ x, kvContains a'.entities.characters x =
         kvContains a.entities.characters x) ∧
       (∀ x, kvContains a'.entities.items x =
         kvContains a.entities.items x)) := by
  induction ups with
  | nil =>
    intro a E hc hi _
    exact Or.inr ⟨E, a, rfl, rfl, hc, hi, rfl, fun _ => rfl, fun _ => rfl⟩
  | cons kv rest ih =>
    intro a E hc hi hm
    have hhead := hm kv (List.mem_cons_self kv rest)
    have hstep := apply_entity_update_eq_project a kv.1 kv.2 hhead
    rcases projectEntityUpdate_congr E a.entities hc hi kv.1 kv.2 with
      ⟨m, hE, hF⟩ | ⟨E1, F1, hE, hF, hc1, hi1⟩
    · left
      refine ⟨m, ?_, ?_⟩
      · simp [projectEntityUpdates, hE]
      · simp [applyEntityUpdates, hstep, hF, Except.map]
    · have hcont := projectEntityUpdate_contains a.entities kv.1 kv.2 F1 hF
      have happ : apply_entity_update a kv.1 kv.2 =
          .ok { a with entities := F1 } := by
        rw [hstep, hF]
        rfl
      have hm' : ∀ kv' ∈ rest,
          ((kv'.2.entity_type == EType.character &&
             kvContains ({ a with entities := F1 } :
               CanonicalState).entities.characters kv'.1) ||
           (kv'.2.entity_type == EType.item &&
             kvContains ({ a with entities := F1 } :
               CanonicalState).entities.items kv'.1)) = true := by
        intro kv' hkv'
        have hu := hm kv' (List.mem_cons_of_mem _ hkv')
        dsimp only
        rw [hcont.1 kv'.1, hcont.2 kv'.1]
        exact hu
      rcases ih { a with entities := F1 } E1 hc1 hi1 hm' with
        ⟨m, h1, h2⟩ | ⟨E2, a2, h1, h2, hc2, hi2, ht2, hcc2, hci2⟩
      · left
        refine ⟨m, ?_, ?_⟩
        · simp [projectEntityUpdates, hE, h1]
        · simp [applyEntityUpdates, happ, h2]
      · right
        refine ⟨E2, a2, ?_, ?_, hc2, hi2, ht2, ?_, ?_⟩
        · simp [projectEntityUpdates, hE, h1]
        · simp [applyEntityUpdates, happ, h2]
        · exact fun x => (hcc2 x).trans (hcont.1 x)
        · exact fun x => (hci2 x).trans (hcont.2 x)

theorem applyPatchRest_chars (s : CanonicalState) (p : StatePatch)
    (eid : String) (n : Nat) :
    (applyPatchRest s p eid n).entities.characters = s.entities.characters := by
  unfold applyPatchRest
  cases p.time_update <;> cases p.quest_updates <;> try rfl
  all_goals
    rename_i l
    by_cases hle : l.isEmpty <;> simp only [hle, Bool.false_eq_true, if_true, if_false] <;> rfl

theorem applyPatchRest_items (s : CanonicalState) (p : StatePatch)
    (eid : String) (n : Nat) :
    (applyPatchRest s p eid n).entities.items = s.entities.items := by
  unfold applyPatchRest
  cases p.time_update <;> cases p.quest_updates <;> try rfl
  all_goals
    rename_i l
    by_cases hle : l.isEmpty <;> simp only [hle, Bool.false_eq_true, if_true, if_false] <;> rfl

theorem applyPatchRest_time (s : CanonicalState) (p : StatePatch)
    (eid : String) (n : Nat) :
    (applyPatchRest s p eid n).time =
      (match p.time_update with
       | some tu => applyTimeUpdate s.time tu
       | none => s.time) := by
  unfold applyPatchRest
  cases p.time_update <;> cases p.quest_updates <;> try rfl
  all_goals
    rename_i l
    by_cases hle : l.isEmpty <;> simp only [hle, Bool.false_eq_true, if_true, if_false] <;> rfl

theorem projectEvent_agree (e : Event) (a t : CanonicalState)
    (hc : t.entities.characters = a.entities.characters)
    (hi : t.entities.items = a.entities.items)
    (ht : t.time = a.time)
    (hp : simplePatch a e = true) :
    (∃ m, projectEvent t e = .error m ∧
          apply_state_patch a e.state_patch e.event_id e.turn = .error m) ∨
    (∃ t1 a1, projectEvent t e = .ok t1 ∧
       apply_state_patch a e.state_patch e.event_id e.turn = .ok a1 ∧
       t1.entities.characters = a1.entities.characters ∧
       t1.entities.items = a1.entities.items ∧
       t1.time = a1.time ∧
       (∀ x, kvContains a1.entities.characters x =
         kvContains a.entities.characters x) ∧
       (∀ x, kvContains a1.entities.items x =
         kvContains a.entities.items x)) := by
  rw [simplePatch, Bool.and_eq_true, Bool.and_eq_true, Bool.and_eq_true] at hp
  obtain ⟨⟨⟨hA, hB⟩, -⟩, -⟩ := hp
  have hA' := List.all_eq_true.mp hA
  rcases entityUpdates_agree e.state_patch.entity_updates a t.entities hc hi hA'
    with ⟨m, hPm, hAm⟩ | ⟨E', a', hP, hA2, hc', hi', ht', hcc, hci⟩
  · left
    refine ⟨m, ?_, ?_⟩
    · simp [projectEvent, Bind.bind, Except.bind, hPm]
    · simp [apply_state_patch, hAm]
  · right
    have hskipP : applyPlayerStage a' e.state_patch = .ok a' := by
      unfold applyPlayerStage
      cases hpu : e.state_patch.player_updates with
      | none => rfl
      | some l =>
        simp only [hpu] at hB
        simp [hB]
    have happly : apply_state_patch a e.state_patch e.event_id e.turn =
        .ok (applyPatchRest a' e.state_patch e.event_id e.turn) := by
      unfold apply_state_patch
      simp only [hA2, hskipP]
    have hproj : projectEvent t e =
        .ok (match e.state_patch.time_update with
             | some tu => { { t with entities := E' } with
                 time := applyTimeUpdate t.time tu }
             | none => { t with entities := E' }) := by
      unfold projectEvent
      simp only [hP, Bind.bind, Except.bind]
      cases hpu : e.state_patch.player_updates with
      | none => simp [pure, Except.pure]
      | some l =>
        simp only [hpu] at hB
        simp [hpu, hB, pure, Except.pure]
    refine ⟨_, _, hproj, happly, ?_, ?_, ?_, ?_, ?_⟩
    · rw [applyPatchRest_chars]
      cases e.state_patch.time_update <;> simpa using hc'
    · rw [applyPatchRest_items]
      cases e.state_patch.time_update <;> simpa using hi'
    · rw [applyPatchRest_time]
      cases e.state_patch.time_update with
      | none => simpa [ht'] using ht
      | some tu =>
        show applyTimeUpdate t.time tu = applyTimeUpdate a'.time tu
        rw [ht, ht']
    · intro x
      rw [applyPatchRest_chars]
      exact hcc x
    · intro x
      rw [applyPatchRest_items]
      exact hci x

theorem simplePatch_transport (a a1 : CanonicalState) (e : Event)
    (h4 : ∀ x, kvContains a1.entities.characters x =
      kvContains a.entities.characters x)
    (h5 : ∀ x, kvContains a1.entities.items x = kvContains a.entities.items x)
    (h : simplePatch a e = true) : simplePatch a1 e = true := by
  rw [simplePatch, Bool.and_eq_true, Bool.and_eq_true, Bool.and_eq_true] at h ⊢
  obtain ⟨⟨⟨hA, hB⟩, hC⟩, hD⟩ := h
  refine ⟨⟨⟨?_, hB⟩, hC⟩, hD⟩
  rw [List.all_eq_true] at hA ⊢
  intro kv hkv
  rw [h4 kv.1, h5 kv.1]
  exact hA kv hkv

theorem patches_agree_aux (evs : List Event) : ∀ (t a : CanonicalState),
    t.entities.characters = a.entities.characters →
    t.entities.items = a.entities.items →
    t.time = a.time →
    (∀ e ∈ evs, simplePatch a e = true) →
    tempAgrees (apply_patches_to_state t evs) (foldApply a evs) := by
  induction evs with
  | nil =>
    intro t a hc hi ht _
    exact ⟨hc, hi, ht⟩
  | cons e r ih =>
    intro t a hc hi ht hm
    rcases projectEvent_agree e a t hc hi ht (hm e (List.mem_cons_self e r))
      with ⟨m, hPm, hAm⟩ | ⟨t1, a1, hP, hA, h1, h2, h3, h4, h5⟩
    · simp only [apply_patches_to_state, foldApply, hPm, hAm]
      exact rfl
    · simp only [apply_patches_to_state, foldApply, hP, hA]
      exact ih t1 a1 h1 h2 h3 (fun e' he' =>
        simplePatch_transport a a1 e' h4 h5 (hm e' (List.mem_cons_of_mem _ he')))

/-- Claim C1 (amended): on batches whose patches only perform in-place updates
of existing characters and items (plus time updates) — no entity creation,
no player/quest/constraint effects — the gate projection
`_apply_patches_to_state` agrees with the fold of the §4.1 applier on the
characters, items and time components, and both fail with the same error;
outside this fragment they diverge (see the counterexample). -/
theorem c1_amended (s : CanonicalState) (evs : List Event)
    (h : ∀ e ∈ evs, simplePatch s e = true) :
    tempAgrees (apply_patches_to_state s evs) (foldApply s evs) :=
  patches_agree_aux evs s s rfl rfl rfl h

/-- Claim C1 witness: the amended agreement at a concrete in-place update
batch. -/
theorem c1_amended_witness :
    tempAgrees (apply_patches_to_state stateA [cwEvent])
      (foldApply stateA [cwEvent]) :=
  c1_amended stateA [cwEvent] (by decide)

-- ==================== C10 amended ====================

theorem charsContain_append_right (l r n : List Char)
    (h : charsContain l n = true) : charsContain (l ++ r) n = true := by
  induction l with
  | nil =>
    simp only [charsContain, List.isEmpty_iff] at h
    subst h
    cases r with
    | nil => rfl
    | cons c t => simp [charsContain, List.isPrefixOf]
  | cons c t ih =>
    simp only [charsContain, Bool.or_eq_true] at h ⊢
    rcases h with h | h
    · left
      rw [List.isPrefixOf_iff_prefix] at h ⊢
      exact h.trans (List.prefix_append _ _)
    · right
      exact ih h

theorem strContains_left (a b n : String) (h : strContainsB a n = true) :
    strContainsB (a ++ b) n = true := by
  unfold strContainsB at h ⊢
  rw [show (a ++ b).toList = a.toList ++ b.toList from String.data_append a b]
  exact charsContain_append_right _ _ _ h

theorem check_r3_message (cur temp : CanonicalState) (evs : List Event)
    (v : RuleViolation) (h : v ∈ check_r3 cur temp evs) :
    strContainsB v.message "死亡角色" = true := by
  unfold check_r3 at h
  rcases List.mem_append.mp h with h1 | h2
  · rcases List.mem_flatMap.mp h1 with ⟨ev, -, hv⟩
    rcases List.mem_filterMap.mp hv with ⟨aid, -, hsome⟩
    cases hd : (deadCharacterIds cur).contains aid with
    | false => rw [hd] at hsome; simp at hsome
    | true =>
      rw [hd] at hsome
      simp only [if_true, Option.some.injEq] at hsome
      subst hsome
      dsimp only
      repeat apply strContains_left
      decide
  · rcases List.mem_flatMap.mp h2 with ⟨ev, -, hv⟩
    cases hty : (ev.type != EventType.REVIVAL) with
    | false => rw [hty] at hv; simp at hv
    | true =>
      rw [hty] at hv
      simp only [if_true] at hv
      rcases List.mem_filterMap.mp hv with ⟨kv, -, hsome⟩
      cases hc : (kv.2.entity_type == EType.character &&
          (deadCharacterIds cur).contains kv.2.entity_id &&
          (kvLookup kv.2.updates "alive" == some (Val.vbool true))) with
      | false => rw [hc] at hsome; simp at hsome
      | true =>
        rw [hc] at hsome
        simp only [if_true, Option.some.injEq] at hsome
        subst hsome
        dsimp only
        repeat apply strContains_left
        decide

theorem determine_action_violations (vs : List RuleViolation)
    (cur : CanonicalState) (ot : Option CanonicalState) :
    (determine_action vs cur ot).violations = vs := by
  unfold determine_action
  by_cases h0 : vs.isEmpty
  · simp [h0, List.isEmpty_iff.mp h0]
  · simp only [h0, Bool.false_eq_true, if_false]
    split <;> try rfl
    all_goals split <;> rfl

/-- Claim C10 (amended): R3's dead-character messages always contain the
literal 死亡角色; and for batches whose violations are exclusively R1 errors,
the action is ASK_USER exactly when some interpolated R1 message contains
多重归属 or 死亡角色 (e.g. through the item id), and REWRITE otherwise. -/
theorem c10_amended :
    (∀ (cur temp : CanonicalState) (evs : List Event) (v : RuleViolation),
       v ∈ check_r3 cur temp evs → strContainsB v.message "死亡角色" = true) ∧
    (∀ (s : CanonicalState) (evs : List Event) (r : ValidationResult),
       validate_event_patch s evs = Except.ok r →
       r.violations ≠ [] →
       (∀ v ∈ r.violations, v.rule_id = "R1" ∧ v.severity = Severity.error) →
       ((r.action = GateAction.ASK_USER ↔
          ∃ v ∈ r.violations, (strContainsB v.message "多重归属" = true ∨
            strContainsB v.message "死亡角色" = true)) ∧
        ((∀ v ∈ r.violations, strContainsB v.message "多重归属" = false ∧
           strContainsB v.message "死亡角色" = false) →
         r.action = GateAction.REWRITE))) := by
  refine ⟨check_r3_message, ?_⟩
  intro s evs r hv hne hall
  have hr : ∃ temp, apply_patches_to_state s evs = Except.ok temp ∧
      r = determine_action (allRuleViolations s temp evs) s (some temp) := by
    unfold validate_event_patch at hv
    cases hp : apply_patches_to_state s evs with
    | error m => rw [hp] at hv; simp [Bind.bind, Except.bind] at hv
    | ok temp =>
      rw [hp] at hv
      simp only [Bind.bind, Except.bind, pure, Except.pure,
        Except.ok.injEq] at hv
      exact ⟨temp, rfl, hv.symm⟩
  obtain ⟨temp, -, rfl⟩ := hr
  set vs := allRuleViolations s temp evs with hvs
  have hviol : (determine_action vs s (some temp)).violations = vs :=
    determine_action_violations vs s (some temp)
  rw [hviol] at hne hall
  have h0 : vs.isEmpty = false := by
    cases hvv : vs with
    | nil => exact absurd hvv hne
    | cons a l => rfl
  have hfe : vs.filter (fun v => v.severity == Severity.error) = vs :=
    List.filter_eq_self.mpr (fun v hv0 => by simp [(hall v hv0).2])
  have hene : ((vs.filter (fun v => v.severity == Severity.error)).isEmpty) = false := by
    rw [hfe]; exact h0
  rw [hviol]
  cases hany : vs.any (fun v => strContainsB v.message "多重归属" ||
      strContainsB v.message "死亡角色") with
  | true =>
    have hact : (determine_action vs s (some temp)).action = GateAction.ASK_USER := by
      unfold determine_action
      simp only [h0, Bool.false_eq_true, if_false, hfe, hene, Bool.not_false,
        if_true, hany]
    refine ⟨⟨fun _ => ?_, fun _ => hact⟩, fun hnone => ?_⟩
    · rcases List.any_eq_true.mp hany with ⟨v, hv1, hv2⟩
      refine ⟨v, hv1, ?_⟩
      simp only [Bool.or_eq_true] at hv2
      exact hv2
    · exfalso
      rcases List.any_eq_true.mp hany with ⟨v, hv1, hv2⟩
      simp only [Bool.or_eq_true] at hv2
      rcases hv2 with hv2 | hv2
      · rw [(hnone v hv1).1] at hv2; cases hv2
      · rw [(hnone v hv1).2] at hv2; cases hv2
  | false =>
    have hact : (determine_action vs s (some temp)).action = GateAction.REWRITE := by
      unfold determine_action
      simp only [h0, Bool.false_eq_true, if_false, hfe, hene, Bool.not_false,
        if_true, hany]
    refine ⟨⟨fun hc => ?_, fun he => ?_⟩, fun _ => hact⟩
    · rw [hact] at hc; cases hc
    · exfalso
      rcases he with ⟨v, hv1, hv2⟩
      have hx : vs.any (fun v => strContainsB v.message "多重归属" ||
          strContainsB v.message "死亡角色") = true :=
        List.any_eq_true.mpr ⟨v, hv1, by
          simp only [Bool.or_eq_true]
          exact hv2⟩
      rw [hany] at hx
      cases hx

/-- Witness for c10_amended: the C3 dead-actor scenario yields an R3 message
containing 死亡角色, and the C10 batch (unique item id 多重归属) whose
violations are exclusively R1 errors is decided ASK_USER. -/
theorem c10_amended_witness :
    strContainsB ((check_r3 c3State c3State [c3Event]).head (by decide)).message
      "死亡角色" = true ∧
    c10Result.action = GateAction.ASK_USER := by
  constructor
  · exact c10_amended.1 c3State c3State [c3Event] _ (List.head_mem _)
  · exact (c10_amended.2 c10State [c10Event1, c10Event2] c10Result (by decide)
      (by decide) (by decide)).1.mpr (by decide)

theorem kvLookup_mem {κ α : Type} [BEq κ] [LawfulBEq κ] (l : KVList κ α) (k : κ) (v : α)
    (h : kvLookup l k = some v) : (k, v) ∈ l := by
  induction l with
  | nil => cases h
  | cons a r ih =>
    obtain ⟨ak, av⟩ := a
    by_cases hk : (ak == k) = true
    · simp only [kvLookup, hk, if_true, Option.some.injEq] at h
      subst h
      have hak : ak = k := eq_of_beq hk
      subst hak
      exact List.mem_cons_self _ _
    · simp only [kvLookup, hk, if_false] at h
      exact List.mem_cons_of_mem _ (ih h)

theorem kvLookup_of_mem_nodup {κ α : Type} [BEq κ] [LawfulBEq κ] (l : KVList κ α) (k : κ) (v : α)
    (hnd : (l.map Prod.fst).Nodup) (h : (k, v) ∈ l) :
    kvLookup l k = some v := by
  induction l with
  | nil => cases h
  | cons a r ih =>
    obtain ⟨ak, av⟩ := a
    simp only [List.map_cons, List.nodup_cons] at hnd
    rcases List.mem_cons.mp h with he | hm
    · cases he
      simp [kvLookup]
    · have hne : ak ≠ k := by
        intro he
        subst he
        exact hnd.1 (List.mem_map.mpr ⟨(ak, v), hm, rfl⟩)
      have hb : (ak == k) = false := beq_eq_false_iff_ne.mpr hne
      simp only [kvLookup, hb, Bool.false_eq_true, if_false]
      exact ih hnd.2 hm

theorem kvLookup_eq_none_iff {κ α : Type} [BEq κ] [LawfulBEq κ] (l : KVList κ α) (k : κ) :
    kvLookup l k = none ↔ k ∉ l.map Prod.fst := by
  induction l with
  | nil => simp [kvLookup]
  | cons a r ih =>
    obtain ⟨ak, av⟩ := a
    by_cases hk : (ak == k) = true
    · have hak : ak = k := eq_of_beq hk
      subst hak
      simp [kvLookup, hk]
    · have hne : ak ≠ k := fun he => hk (he ▸ beq_self_eq_true ak)
      simp [kvLookup, hk, ih, Ne.symm hne]

theorem kvContains_eq_false_iff {κ α : Type} [BEq κ] [LawfulBEq κ] (l : KVList κ α) (k : κ) :
    kvContains l k = false ↔ k ∉ l.map Prod.fst := by
  rw [← kvLookup_eq_none_iff]
  cases h : kvLookup l k <;> simp [kvContains, h]

theorem kvSet_of_not_contains {κ α : Type} [BEq κ] (l : KVList κ α) (k : κ) (v : α)
    (h : kvContains l k = false) : kvSet l k v = l ++ [(k, v)] := by
  induction l with
  | nil => simp [kvSet]
  | cons a r ih =>
    obtain ⟨ak, av⟩ := a
    by_cases hk : (ak == k) = true
    · exfalso
      simp [kvContains, kvLookup, hk] at h
    · have hr : kvContains r k = false := by
        simpa [kvContains, kvLookup, hk] using h
      simp [kvSet, hk, ih hr]

theorem kvModify_keys {κ α : Type} [BEq κ] (l : KVList κ α) (k : κ) (f : α → α) :
    (kvModify l k f).map Prod.fst = l.map Prod.fst := by
  induction l with
  | nil => rfl
  | cons a r ih =>
    obtain ⟨ak, av⟩ := a
    by_cases hk : (ak == k) = true
    · simp [kvModify, hk]
    · simp [kvModify, hk, ih]

theorem kvSet_keys_of_contains {κ α : Type} [BEq κ] (l : KVList κ α) (k : κ) (v : α)
    (h : kvContains l k = true) : (kvSet l k v).map Prod.fst = l.map Prod.fst := by
  induction l with
  | nil => simp [kvContains, kvLookup] at h
  | cons a r ih =>
    obtain ⟨ak, av⟩ := a
    by_cases hk : (ak == k) = true
    · simp [kvSet, hk]
    · have hr : kvContains r k = true := by
        simpa [kvContains, kvLookup, hk] using h
      simp [kvSet, hk, ih hr]

theorem mem_kvModify {κ α : Type} [BEq κ] [LawfulBEq κ] (l : KVList κ α) (k : κ) (f : α → α)
    (kv : κ × α) (h : kv ∈ kvModify l k f) :
    kv ∈ l ∨ ∃ w, kvLookup l k = some w ∧ kv = (k, f w) := by
  induction l with
  | nil => cases h
  | cons a r ih =>
    obtain ⟨ak, av⟩ := a
    by_cases hk : (ak == k) = true
    · have hak : ak = k := eq_of_beq hk
      subst hak
      simp only [kvModify, hk, if_true] at h
      rcases List.mem_cons.mp h with he | hm
      · exact Or.inr ⟨av, by simp [kvLookup], he⟩
      · exact Or.inl (List.mem_cons_of_mem _ hm)
    · simp only [kvModify, hk, if_false] at h
      rcases List.mem_cons.mp h with he | hm
      · exact Or.inl (he ▸ List.mem_cons_self _ _)
      · rcases ih hm with h1 | ⟨w, hw, he⟩
        · exact Or.inl (List.mem_cons_of_mem _ h1)
        · exact Or.inr ⟨w, by simp [kvLookup, hk, hw], he⟩

theorem kvModify_append_new {κ α : Type} [BEq κ] [LawfulBEq κ] (l : KVList κ α) (k : κ)
    (w : α) (f : α → α) (h : kvContains l k = false) :
    kvModify (l ++ [(k, w)]) k f = l ++ [(k, f w)] := by
  induction l with
  | nil => simp [kvModify]
  | cons a r ih =>
    obtain ⟨ak, av⟩ := a
    by_cases hk : (ak == k) = true
    · exfalso
      simp [kvContains, kvLookup, hk] at h
    · have hr : kvContains r k = false := by
        simpa [kvContains, kvLookup, hk] using h
      simp [kvModify, hk, ih hr]

theorem kvLookup_append_right {κ α : Type} [BEq κ] [LawfulBEq κ] (l : KVList κ α) (k : κ)
    (v : α) (h : kvContains l k = false) :
    kvLookup (l ++ [(k, v)]) k = some v := by
  induction l with
  | nil => simp [kvLookup]
  | cons a r ih =>
    obtain ⟨ak, av⟩ := a
    by_cases hk : (ak == k) = true
    · exfalso
      simp [kvContains, kvLookup, hk] at h
    · have hr : kvContains r k = false := by
        simpa [kvContains, kvLookup, hk] using h
      simp [kvLookup, hk, ih hr]

theorem mem_ite_list {α : Type} {c : Prop} [Decidable c] {l1 l2 : List α} {v : α}
    (h : v ∈ if c then l1 else l2) : v ∈ l1 ∨ v ∈ l2 := by
  split at h
  · exact Or.inl h
  · exact Or.inr h

theorem check_r1_severity (cur temp : CanonicalState) (evs : List Event)
    (v : RuleViolation) (h : v ∈ check_r1 cur temp evs) :
    v.severity = Severity.error := by
  unfold check_r1 at h
  rcases List.mem_flatMap.mp h with ⟨kv, -, hv⟩
  rcases mem_ite_list hv with h1 | h1
  · have := List.mem_singleton.mp h1
    subst this
    rfl
  · cases h1

theorem check_r3_severity (cur temp : CanonicalState) (evs : List Event)
    (v : RuleViolation) (h : v ∈ check_r3 cur temp evs) :
    v.severity = Severity.error := by
  unfold check_r3 at h
  rcases List.mem_append.mp h with h1 | h2
  · rcases List.mem_flatMap.mp h1 with ⟨ev, -, hv⟩
    rcases List.mem_filterMap.mp hv with ⟨aid, -, hsome⟩
    cases hd : (deadCharacterIds cur).contains aid with
    | false => rw [hd] at hsome; simp at hsome
    | true =>
      rw [hd] at hsome
      simp only [if_true, Option.some.injEq] at hsome
      subst hsome
      rfl
  · rcases List.mem_flatMap.mp h2 with ⟨ev, -, hv⟩
    cases hty : (ev.type != EventType.REVIVAL) with
    | false => rw [hty] at hv; simp at hv
    | true =>
      rw [hty] at hv
      simp only [if_true] at hv
      rcases List.mem_filterMap.mp hv with ⟨kv, -, hsome⟩
      cases hc : (kv.2.entity_type == EType.character &&
          (deadCharacterIds cur).contains kv.2.entity_id &&
          (kvLookup kv.2.updates "alive" == some (Val.vbool true))) with
      | false => rw [hc] at hsome; simp at hsome
      | true =>
        rw [hc] at hsome
        simp only [if_true, Option.some.injEq] at hsome
        subst hsome
        rfl

theorem check_r4_severity (cur temp : CanonicalState) (evs : List Event)
    (v : RuleViolation) (h : v ∈ check_r4 cur temp evs) :
    v.severity = Severity.error := by
  unfold check_r4 at h
  rcases List.mem_flatMap.mp h with ⟨ev, -, hv⟩
  rcases List.mem_flatMap.mp hv with ⟨kv, -, hv⟩
  rcases mem_ite_list hv with h1 | h1
  · simp only [List.mem_append] at h1
    rcases h1 with h1 | h1
    · split at h1
      · split at h1
        · split at h1
          · split at h1
            · have := List.mem_singleton.mp h1
              subst this
              rfl
            · split at h1
              · have := List.mem_singleton.mp h1
                subst this
                rfl
              · cases h1
          · cases h1
        · cases h1
      · cases h1
    · split at h1
      · split at h1
        · split at h1
          · have := List.mem_singleton.mp h1
            subst this
            rfl
          · cases h1
        · cases h1
      · cases h1
  · cases h1

theorem check_r5_severity (cur temp : CanonicalState) (evs : List Event)
    (v : RuleViolation) (h : v ∈ check_r5 cur temp evs) :
    v.severity = Severity.error := by
  unfold check_r5 at h
  rcases List.mem_flatMap.mp h with ⟨ev, -, hv⟩
  rcases List.mem_flatMap.mp hv with ⟨kv, -, hv⟩
  rcases mem_ite_list hv with h1 | h1
  · try simp only [] at h1
    repeat' split at h1
    all_goals first
      | (have hone := List.mem_singleton.mp h1; subst hone; rfl)
      | cases h1
  · cases h1

theorem r6Part1_severity (l : KVList String Character) (seen : List String)
    (v : RuleViolation) (h : v ∈ r6Part1 l seen) :
    v.severity = Severity.error := by
  induction l generalizing seen with
  | nil => cases h
  | cons a r ih =>
    obtain ⟨cid, c⟩ := a
    simp only [r6Part1, List.mem_append] at h
    rcases h with h | h
    · rcases mem_ite_list h with h | h
      · have := List.mem_singleton.mp h
        subst this
        rfl
      · cases h
    · exact ih _ h

theorem check_r6_severity (cur temp : CanonicalState) (evs : List Event)
    (v : RuleViolation) (h : v ∈ check_r6 cur temp evs) :
    v.severity = Severity.error := by
  unfold check_r6 at h
  rcases List.mem_append.mp h with h1 | h1
  · exact r6Part1_severity _ _ _ h1
  · rcases List.mem_flatMap.mp h1 with ⟨grp, -, hv⟩
    rcases List.mem_flatMap.mp hv with ⟨kv, -, hv⟩
    rcases mem_ite_list hv with h2 | h2
    · have := List.mem_singleton.mp h2
      subst this
      rfl
    · cases h2

theorem r7Walk_severity (n : Nat) (l : List Event) (v : RuleViolation)
    (h : v ∈ r7Walk n l) : v.severity = Severity.error := by
  induction l generalizing n with
  | nil => cases h
  | cons e r ih =>
    simp only [r7Walk, List.mem_append] at h
    rcases h with h | h
    · rcases mem_ite_list h with h | h
      · have := List.mem_singleton.mp h
        subst this
        rfl
      · cases h
    · exact ih _ h

theorem r7Pairs_severity (l : List Event) (v : RuleViolation)
    (h : v ∈ r7Pairs l) : v.severity = Severity.error := by
  induction l with
  | nil => cases h
  | cons e r ih =>
    simp only [r7Pairs, List.mem_append] at h
    rcases h with h | h
    · split at h
      · have := List.mem_singleton.mp h
        subst this
        rfl
      · cases h
    · exact ih h

theorem check_r7_severity (cur temp : CanonicalState) (evs : List Event)
    (v : RuleViolation) (h : v ∈ check_r7 cur temp evs) :
    v.severity = Severity.error := by
  unfold check_r7 at h
  rcases List.mem_append.mp h with h1 | h1
  · rcases List.mem_append.mp h1 with h2 | h2
    · exact r7Walk_severity _ _ _ h2
    · exact r7Pairs_severity _ _ h2
  · rcases mem_ite_list h1 with h3 | h3
    · have := List.mem_singleton.mp h3
      subst this
      rfl
    · cases h3

theorem check_r8_severity (cur temp : CanonicalState) (evs : List Event)
    (v : RuleViolation) (h : v ∈ check_r8 cur temp evs) :
    v.severity = Severity.error := by
  unfold check_r8 at h
  rcases List.mem_append.mp h with h1 | h1
  · rcases List.mem_filterMap.mp h1 with ⟨e, -, hsome⟩
    split at hsome
    · have := Option.some.inj hsome
      subst this
      rfl
    · cases hsome
  · rcases List.mem_flatMap.mp h1 with ⟨con, -, hv⟩
    repeat' split at hv
    all_goals first
      | (have hone := List.mem_singleton.mp hv; subst hone; rfl)
      | cases hv

theorem check_r9_severity (cur temp : CanonicalState) (evs : List Event)
    (v : RuleViolation) (h : v ∈ check_r9 cur temp evs) :
    v.severity = Severity.error := by
  unfold check_r9 at h
  rcases List.mem_flatMap.mp h with ⟨ev, -, hv⟩
  rcases List.mem_flatMap.mp hv with ⟨kv, -, hv⟩
  rcases mem_ite_list hv with h1 | h1
  · simp only [List.mem_append] at h1
    rcases h1 with h1 | h1 <;>
    · try simp only [] at h1
      repeat' split at h1
      all_goals first
        | (have hone := List.mem_singleton.mp h1; subst hone; rfl)
        | cases h1
  · cases h1

theorem r2ItemCheck_some (chars : KVList String Character)
    (locs : KVList String Location) (k : String) (it : Item) (v : RuleViolation)
    (h : r2ItemCheck chars locs k it = some v) :
    ∃ o exp, it.owner_id = some o ∧ (o != "") = true ∧
      ownerExpectedLocation chars locs o = some exp ∧
      ((exp != "") && (it.location_id != some exp)) = true ∧
      v = { rule_id := "R2", rule_name := "物品位置与归属一致",
            severity := Severity.warning,
            message := r2Message it.name k it.location_id o exp,
            entity_id := some k, fixable := true } := by
  unfold r2ItemCheck at h
  split at h
  · rename_i o hoeq
    split at h
    · rename_i ho
      split at h
      · rename_i exp hexpeq
        split at h
        · rename_i hcond
          exact ⟨o, exp, hoeq, ho, hexpeq, hcond, (Option.some.inj h).symm⟩
        · cases h
      · cases h
    · cases h
  · cases h

theorem mem_check_r2 (s t : CanonicalState) (evs : List Event) (v : RuleViolation) :
    v ∈ check_r2 s t evs ↔ ∃ kv, kv ∈ t.entities.items ∧
      r2ItemCheck t.entities.characters t.entities.locations kv.1 kv.2 = some v := by
  unfold check_r2
  exact List.mem_filterMap

theorem rule_nil_of_no_error (l : List RuleViolation) (vsAll : List RuleViolation)
    (hsub : ∀ x ∈ l, x ∈ vsAll)
    (hsev : ∀ x ∈ l, x.severity = Severity.error)
    (hno : ∀ x ∈ vsAll, x.severity ≠ Severity.error) : l = [] := by
  cases hc : l with
  | nil => rfl
  | cons a r =>
    exfalso
    have ha : a ∈ l := by rw [hc]; exact List.mem_cons_self _ _
    exact hno a (hsub a ha) (hsev a ha)

theorem allRuleViolations_no_error_eq_r2 (s t : CanonicalState) (evs : List Event)
    (h : (allRuleViolations s t evs).filter (fun v => v.severity == Severity.error) = []) :
    allRuleViolations s t evs = check_r2 s t evs := by
  have hno : ∀ x ∈ allRuleViolations s t evs, x.severity ≠ Severity.error := by
    intro x hx he
    have hf := List.filter_eq_nil_iff.mp h x hx
    simp [he] at hf
  have h1 : check_r1 s t evs = [] :=
    rule_nil_of_no_error _ _ (fun x hx => by
      unfold allRuleViolations
      exact (List.mem_append_left _ (List.mem_append_left _ (List.mem_append_left _ (List.mem_append_left _ (List.mem_append_left _ (List.mem_append_left _ (List.mem_append_left _ (List.mem_append_left _ (List.mem_append_left _ hx))))))))))
      (check_r1_severity s t evs) hno
  have h3 : check_r3 s t evs = [] :=
    rule_nil_of_no_error _ _ (fun x hx => by
      unfold allRuleViolations
      exact (List.mem_append_left _ (List.mem_append_left _ (List.mem_append_left _ (List.mem_append_left _ (List.mem_append_left _ (List.mem_append_left _ (List.mem_append_left _ (List.mem_append_right _ hx)))))))))
      (check_r3_severity s t evs) hno
  have h4 : check_r4 s t evs = [] :=
    rule_nil_of_no_error _ _ (fun x hx => by
      unfold allRuleViolations
      exact (List.mem_append_left _ (List.mem_append_left _ (List.mem_append_left _ (List.mem_append_left _ (List.mem_append_left _ (List.mem_append_left _ (List.mem_append_right _ hx))))))))
      (check_r4_severity s t evs) hno
  have h5 : check_r5 s t evs = [] :=
    rule_nil_of_no_error _ _ (fun x hx => by
      unfold allRuleViolations
      exact (List.mem_append_left _ (List.mem_append_left _ (List.mem_append_left _ (List.mem_append_left _ (List.mem_append_left _ (List.mem_append_right _ hx)))))))
      (check_r5_severity s t evs) hno
  have h6 : check_r6 s t evs = [] :=
    rule_nil_of_no_error _ _ (fun x hx => by
      unfold allRuleViolations
      exact (List.mem_append_left _ (List.mem_append_left _ (List.mem_append_left _ (List.mem_append_left _ (List.mem_append_right _ hx))))))
      (check_r6_severity s t evs) hno
  have h7 : check_r7 s t evs = [] :=
    rule_nil_of_no_error _ _ (fun x hx => by
      unfold allRuleViolations
      exact (List.mem_append_left _ (List.mem_append_left _ (List.mem_append_left _ (List.mem_append_right _ hx)))))
      (check_r7_severity s t evs) hno
  have h8 : check_r8 s t evs = [] :=
    rule_nil_of_no_error _ _ (fun x hx => by
      unfold allRuleViolations
      exact (List.mem_append_left _ (List.mem_append_left _ (List.mem_append_right _ hx))))
      (check_r8_severity s t evs) hno
  have h9 : check_r9 s t evs = [] :=
    rule_nil_of_no_error _ _ (fun x hx => by
      unfold allRuleViolations
      exact (List.mem_append_left _ (List.mem_append_right _ hx)))
      (check_r9_severity s t evs) hno
  unfold allRuleViolations
  rw [h1, h3, h4, h5, h6, h7, h8, h9]
  simp [check_r10]

theorem determine_action_auto_fix (vs : List RuleViolation)
    (cur t : CanonicalState)
    (ha : (determine_action vs cur (some t)).action = GateAction.AUTO_FIX) :
    vs.filter (fun v => v.severity == Severity.error) = [] ∧
    vs.isEmpty = false ∧
    (determine_action vs cur (some t)).fixes = build_fix_patch vs t := by
  cases h0 : vs.isEmpty with
  | true =>
    exfalso
    unfold determine_action at ha
    rw [if_pos h0] at ha
    simp at ha
  | false =>
    unfold determine_action at ha
    simp only [h0, Bool.false_eq_true, if_false] at ha
    cases he : (vs.filter fun v => v.severity == Severity.error).isEmpty with
    | false =>
      exfalso
      rw [he] at ha
      simp only [Bool.not_false, if_true] at ha
      split at ha <;> simp at ha
    | true =>
      refine ⟨List.isEmpty_iff.mp he, rfl, ?_⟩
      rw [he] at ha
      simp only [Bool.not_true, Bool.false_eq_true, if_false] at ha
      unfold determine_action
      simp only [h0, Bool.false_eq_true, if_false, he, Bool.not_true]
      split at ha
      · rename_i hW
        rw [if_pos hW]
        rfl
      · simp at ha


theorem kvContains_eq_true_iff {κ α : Type} [BEq κ] [LawfulBEq κ] (l : KVList κ α) (k : κ) :
    kvContains l k = true ↔ k ∈ l.map Prod.fst := by
  cases h : kvContains l k with
  | false =>
    simp only [Bool.false_eq_true, false_iff]
    exact (kvContains_eq_false_iff l k).mp h
  | true =>
    simp only [true_iff]
    by_contra hn
    rw [← kvContains_eq_false_iff] at hn
    rw [h] at hn
    cases hn

theorem buildFixStep_inv (t : CanonicalState) (acc : KVList String EntityUpdate)
    (v : RuleViolation) (hnd : (acc.map Prod.fst).Nodup)
    (hsh : ∀ kv ∈ acc, FixShape t kv) :
    ((buildFixStep t acc v).map Prod.fst).Nodup ∧
    (∀ kv ∈ buildFixStep t acc v, FixShape t kv) := by
  unfold buildFixStep
  split
  · split
    · rename_i eid heid
      split
      · rename_i hcnd
        split
        · rename_i item hit
          split
          · rename_i o how
            split
            · rename_i ho
              split
              · rename_i cl hcl
                cases hca : kvContains acc eid with
                | true =>
                  simp only [hca, if_true]
                  constructor
                  · rw [kvModify_keys]
                    exact hnd
                  · intro kv hkv
                    rcases mem_kvModify _ _ _ _ hkv with hm | ⟨w, hw, he⟩
                    · exact hsh kv hm
                    · obtain ⟨item', o', cl', hit', how', ho', hcl', hwsh⟩ :=
                        hsh (eid, w) (kvLookup_mem _ _ _ hw)
                      have hw2 : w = { entity_type := EType.item, entity_id := eid, updates := [("location_id", Val.vstr cl')] } := hwsh
                      rw [hit] at hit'
                      obtain rfl := Option.some.inj hit'
                      rw [how] at how'
                      obtain rfl := Option.some.inj how'
                      rw [hcl] at hcl'
                      obtain rfl := Option.some.inj hcl'
                      subst he
                      refine ⟨item, o, cl, hit, how, ho, hcl, ?_⟩
                      rw [hw2]
                      simp [kvSet]
                | false =>
                  simp only [hca, Bool.false_eq_true, if_false]
                  rw [kvSet_of_not_contains _ _ _ hca, kvModify_append_new _ _ _ _ hca]
                  have hni : eid ∉ acc.map Prod.fst := (kvContains_eq_false_iff _ _).mp hca
                  constructor
                  · rw [List.map_append]
                    simp only [List.map_cons, List.map_nil]
                    rw [List.nodup_append]
                    exact ⟨hnd, List.nodup_singleton _, by
                      intro a ha hb
                      rcases List.mem_singleton.mp hb with rfl
                      exact hni ha⟩
                  · intro kv hkv
                    rcases List.mem_append.mp hkv with hm | hm
                    · exact hsh kv hm
                    · rcases List.mem_singleton.mp hm with rfl
                      exact ⟨item, o, cl, hit, how, ho, hcl, by simp [kvSet]⟩
              · exact ⟨hnd, hsh⟩
            · exact ⟨hnd, hsh⟩
          · exact ⟨hnd, hsh⟩
        · exact ⟨hnd, hsh⟩
      · exact ⟨hnd, hsh⟩
    · exact ⟨hnd, hsh⟩
  · exact ⟨hnd, hsh⟩

theorem buildFixStep_mono (t : CanonicalState) (acc : KVList String EntityUpdate)
    (v : RuleViolation) (k : String) (h : kvContains acc k = true) :
    kvContains (buildFixStep t acc v) k = true := by
  unfold buildFixStep
  split
  · split
    · rename_i eid heid
      split
      · split
        · split
          · split
            · split
              · cases hca : kvContains acc eid with
                | true =>
                  simp only [hca, if_true]
                  rw [kvContains_eq_true_iff, kvModify_keys,
                    ← kvContains_eq_true_iff]
                  exact h
                | false =>
                  simp only [hca, Bool.false_eq_true, if_false]
                  rw [kvSet_of_not_contains _ _ _ hca,
                    kvModify_append_new _ _ _ _ hca]
                  rw [kvContains_eq_true_iff, List.map_append]
                  exact List.mem_append_left _ ((kvContains_eq_true_iff _ _).mp h)
              · exact h
            · exact h
          · exact h
        · exact h
      · exact h
    · exact h
  · exact h

theorem buildFixStep_adds (t : CanonicalState) (acc : KVList String EntityUpdate)
    (v : RuleViolation) (eid : String) (item : Item) (o cl : String)
    (hfix : v.fixable = true) (heid : v.entity_id = some eid)
    (hne : (eid != "") = true) (hr2 : (v.rule_id == "R2") = true)
    (hit : kvLookup t.entities.items eid = some item)
    (how : item.owner_id = some o) (ho : (o != "") = true)
    (hcl : ownerExpectedLocation t.entities.characters t.entities.locations o = some cl) :
    kvContains (buildFixStep t acc v) eid = true := by
  unfold buildFixStep
  simp only [hfix, if_true, heid, hne, hr2, Bool.and_self, hit, how, ho, hcl]
  cases hca : kvContains acc eid with
  | true =>
    simp only [hca, if_true]
    rw [kvContains_eq_true_iff, kvModify_keys, ← kvContains_eq_true_iff]
    exact hca
  | false =>
    simp only [hca, Bool.false_eq_true, if_false]
    rw [kvSet_of_not_contains _ _ _ hca, kvModify_append_new _ _ _ _ hca]
    rw [kvContains_eq_true_iff, List.map_append]
    refine List.mem_append_right _ ?_
    simp

theorem buildFixFold_inv (t : CanonicalState) (l : List RuleViolation)
    (acc : KVList String EntityUpdate) (hnd : (acc.map Prod.fst).Nodup)
    (hsh : ∀ kv ∈ acc, FixShape t kv) :
    (((l.foldl (buildFixStep t) acc).map Prod.fst).Nodup) ∧
    (∀ kv ∈ l.foldl (buildFixStep t) acc, FixShape t kv) := by
  induction l generalizing acc with
  | nil => exact ⟨hnd, hsh⟩
  | cons v r ih =>
    simp only [List.foldl_cons]
    obtain ⟨hnd', hsh'⟩ := buildFixStep_inv t acc v hnd hsh
    exact ih _ hnd' hsh'

theorem buildFixFold_mono (t : CanonicalState) (l : List RuleViolation)
    (acc : KVList String EntityUpdate) (k : String)
    (h : kvContains acc k = true) :
    kvContains (l.foldl (buildFixStep t) acc) k = true := by
  induction l generalizing acc with
  | nil => exact h
  | cons v r ih =>
    simp only [List.foldl_cons]
    exact ih _ (buildFixStep_mono t acc v k h)

theorem buildFixFold_covers (t : CanonicalState) (l : List RuleViolation)
    (acc : KVList String EntityUpdate) (v : RuleViolation)
    (eid : String) (item : Item) (o cl : String) (hv : v ∈ l)
    (hfix : v.fixable = true) (heid : v.entity_id = some eid)
    (hne : (eid != "") = true) (hr2 : (v.rule_id == "R2") = true)
    (hit : kvLookup t.entities.items eid = some item)
    (how : item.owner_id = some o) (ho : (o != "") = true)
    (hcl : ownerExpectedLocation t.entities.characters t.entities.locations o = some cl) :
    kvContains (l.foldl (buildFixStep t) acc) eid = true := by
  induction l generalizing acc with
  | nil => cases hv
  | cons w r ih =>
    simp only [List.foldl_cons]
    rcases List.mem_cons.mp hv with he | hm
    · subst he
      exact buildFixFold_mono t r _ eid
        (buildFixStep_adds t acc v eid item o cl hfix heid hne hr2 hit how ho hcl)
    · exact ih _ hm

theorem setattrItem_location (it : Item) (cl : String) :
    setattrItem it "location_id" (Val.vstr cl) =
      Except.ok { it with location_id := some cl } := rfl

theorem projectFix_ok (e : Entities) (l : KVList String EntityUpdate)
    (hnd : (l.map Prod.fst).Nodup)
    (hsh : ∀ kv ∈ l, ∃ it cl, kvLookup e.items kv.1 = some it ∧
      kv.2 = { entity_type := EType.item, entity_id := kv.1, updates := [("location_id", Val.vstr cl)] }) :
    ∃ ents, projectEntityUpdates e l = Except.ok ents ∧
      ents.characters = e.characters ∧ ents.locations = e.locations ∧
      ents.items.map Prod.fst = e.items.map Prod.fst ∧
      (∀ k, kvContains l k = false → kvLookup ents.items k = kvLookup e.items k) ∧
      (∀ kv ∈ l, ∀ cl, kv.2.updates = [("location_id", Val.vstr cl)] →
        ∃ it, kvLookup e.items kv.1 = some it ∧
          kvLookup ents.items kv.1 = some { it with location_id := some cl }) := by
  induction l generalizing e with
  | nil =>
    refine ⟨e, rfl, rfl, rfl, rfl, fun k _ => rfl, fun kv hkv => absurd hkv (by simp)⟩
  | cons hd r ih =>
    obtain ⟨k0, eu0⟩ := hd
    obtain ⟨it0, cl0, hlook, heu⟩ := hsh (k0, eu0) (List.mem_cons_self _ _)
    have hlook0 : kvLookup e.items k0 = some it0 := hlook
    have heu0 : eu0 = { entity_type := EType.item, entity_id := k0, updates := [("location_id", Val.vstr cl0)] } := heu
    simp only [List.map_cons, List.nodup_cons] at hnd
    have hstep : projectEntityUpdate e k0 eu0 =
        Except.ok { e with items := kvSet e.items k0 { it0 with location_id := some cl0 } } := by
      rw [heu0]
      unfold projectEntityUpdate
      simp only
      rw [hlook0]
      simp only [setattrFold, setattrItem_location, Bind.bind, Except.bind]
    have hcont : kvContains e.items k0 = true := by
      unfold kvContains
      rw [hlook0]
      rfl
    have hshr : ∀ kv ∈ r, ∃ it cl,
        kvLookup (kvSet e.items k0 { it0 with location_id := some cl0 }) kv.1 = some it ∧
        kv.2 = { entity_type := EType.item, entity_id := kv.1, updates := [("location_id", Val.vstr cl)] } := by
      intro kv hkv
      obtain ⟨it, cl, hl, he⟩ := hsh kv (List.mem_cons_of_mem _ hkv)
      have hne : k0 ≠ kv.1 := by
        intro hk
        exact hnd.1 (hk ▸ List.mem_map.mpr ⟨kv, hkv, rfl⟩)
      refine ⟨it, cl, ?_, he⟩
      rw [kvLookup_kvSet, if_neg, hl]
      intro hb
      exact hne (eq_of_beq hb)
    obtain ⟨ents, hproj, hch, hlo, hkeys, huntouched, hpos⟩ :=
      ih { e with items := kvSet e.items k0 { it0 with location_id := some cl0 } } hnd.2 hshr
    refine ⟨ents, ?_, hch, hlo, ?_, ?_, ?_⟩
    · unfold projectEntityUpdates
      rw [hstep]
      exact hproj
    · rw [hkeys]
      exact kvSet_keys_of_contains _ _ _ hcont
    · intro k hk
      have hk0 : (k0 == k) = false := by
        unfold kvContains kvLookup at hk
        cases hb : (k0 == k) with
        | false => rfl
        | true =>
          exfalso
          obtain rfl := eq_of_beq hb
          rw [hb] at hk
          simp at hk
      have hkr : kvContains r k = false := by
        unfold kvContains at hk ⊢
        rw [kvLookup] at hk
        rw [hk0] at hk
        simpa using hk
      rw [huntouched k hkr, kvLookup_kvSet, hk0]
      simp
    · intro kv hkv cl hcl
      rcases List.mem_cons.mp hkv with he | hm
      · subst he
        have hcl2 : eu0.updates = [("location_id", Val.vstr cl)] := hcl
        rw [heu0] at hcl2
        have hcl3 : [("location_id", Val.vstr cl0)] = [("location_id", Val.vstr cl)] := hcl2
        simp only [List.cons.injEq, Prod.mk.injEq, Val.vstr.injEq, and_true, true_and] at hcl3
        subst hcl3
        refine ⟨it0, hlook0, ?_⟩
        have hkr : kvContains r k0 = false := by
          rw [kvContains_eq_false_iff]
          exact hnd.1
        rw [huntouched k0 hkr, kvLookup_kvSet]
        simp
      · obtain ⟨it, hl, hl2⟩ := hpos kv hm cl hcl
        have hne : k0 ≠ kv.1 := by
          intro hk
          exact hnd.1 (hk ▸ List.mem_map.mpr ⟨kv, hm, rfl⟩)
        refine ⟨it, ?_, hl2⟩
        rw [kvLookup_kvSet, if_neg] at hl
        · exact hl
        · intro hb
          exact hne (eq_of_beq hb)

theorem validate_ok_inversion (s : CanonicalState) (evs : List Event)
    (r : ValidationResult) (hv : validate_event_patch s evs = Except.ok r) :
    ∃ temp, apply_patches_to_state s evs = Except.ok temp ∧
      r = determine_action (allRuleViolations s temp evs) s (some temp) := by
  unfold validate_event_patch at hv
  cases hp : apply_patches_to_state s evs with
  | error m =>
    rw [hp] at hv
    simp [Bind.bind, Except.bind] at hv
  | ok temp =>
    rw [hp] at hv
    simp only [Bind.bind, Except.bind, pure, Except.pure, Except.ok.injEq] at hv
    exact ⟨temp, rfl, hv.symm⟩

/-- Claim C9 (amended): whenever the gate decides AUTO_FIX, the fixes patch is
present, projecting it onto the gate's own temp state succeeds, and R2 emits no
violations on the result (assuming the projected item dictionary has unique
non-empty keys, as Python dicts do). -/
theorem c9_amended (s : CanonicalState) (evs : List Event) (r : ValidationResult)
    (t : CanonicalState)
    (hv : validate_event_patch s evs = Except.ok r)
    (htp : apply_patches_to_state s evs = Except.ok t)
    (hnd : (t.entities.items.map Prod.fst).Nodup)
    (hnk : ∀ k ∈ t.entities.items.map Prod.fst, k ≠ "")
    (ha : r.action = GateAction.AUTO_FIX) :
    ∃ fp ents, r.fixes = some fp ∧
      projectEntityUpdates t.entities fp.entity_updates = Except.ok ents ∧
      check_r2 s { t with entities := ents } evs = [] := by
  obtain ⟨t', htp', hr⟩ := validate_ok_inversion s evs r hv
  rw [htp] at htp'
  obtain rfl := Except.ok.inj htp'
  subst hr
  set vs := allRuleViolations s t evs with hvs
  obtain ⟨herr, hne0, hfix⟩ := determine_action_auto_fix vs s t ha
  have hr2eq : vs = check_r2 s t evs := allRuleViolations_no_error_eq_r2 s t evs herr
  set eus := vs.foldl (buildFixStep t) [] with heus
  have hvdata : ∀ v ∈ vs, ∃ eid item o cl,
      v.fixable = true ∧ v.entity_id = some eid ∧ (eid != "") = true ∧
      (v.rule_id == "R2") = true ∧ kvLookup t.entities.items eid = some item ∧
      item.owner_id = some o ∧ (o != "") = true ∧
      ownerExpectedLocation t.entities.characters t.entities.locations o = some cl := by
    intro v hv0
    rw [hr2eq] at hv0
    obtain ⟨kv, hmem, hchk⟩ := (mem_check_r2 s t evs v).mp hv0
    obtain ⟨o, exp, how, ho, hexp, hcond, hveq⟩ := r2ItemCheck_some _ _ _ _ _ hchk
    have hlk : kvLookup t.entities.items kv.1 = some kv.2 :=
      kvLookup_of_mem_nodup _ _ _ hnd hmem
    refine ⟨kv.1, kv.2, o, exp, by rw [hveq], by rw [hveq], ?_, by rw [hveq]; rfl, hlk, how, ho, hexp⟩
    exact bne_iff_ne.mpr (hnk kv.1 (List.mem_map.mpr ⟨kv, hmem, rfl⟩))
  obtain ⟨hndE, hshE⟩ := buildFixFold_inv t vs [] (by simp) (by intro kv hkv; cases hkv)
  have heusne : eus.isEmpty = false := by
    cases hv0 : vs with
    | nil =>
      rw [hv0] at hne0
      simp at hne0
    | cons v0 vsr =>
      obtain ⟨eid, item, o, cl, hf, he, hn, hrr2, hit, how, ho, hcl⟩ :=
        hvdata v0 (by rw [hv0]; exact List.mem_cons_self _ _)
      have hccc : kvContains eus eid = true :=
        buildFixFold_covers t vs [] v0 eid item o cl
          (by rw [hv0]; exact List.mem_cons_self _ _) hf he hn hrr2 hit how ho hcl
      cases heq : eus with
      | nil =>
        rw [heq] at hccc
        simp [kvContains, kvLookup] at hccc
      | cons a b => rfl
  have hbf : build_fix_patch vs t = some { entity_updates := eus, time_update := none, quest_updates := none, constraint_additions := [], player_updates := none } := by
    unfold build_fix_patch
    simp only [← heus, heusne, Bool.false_eq_true, if_false]
  have hshproj : ∀ kv ∈ eus, ∃ it cl, kvLookup t.entities.items kv.1 = some it ∧
      kv.2 = { entity_type := EType.item, entity_id := kv.1, updates := [("location_id", Val.vstr cl)] } := by
    intro kv hkv
    obtain ⟨item, o, cl, hit, -, -, -, hkveq⟩ := hshE kv hkv
    exact ⟨item, cl, hit, hkveq⟩
  obtain ⟨ents, hproj, hch, hlo, hkeys, huntouched, hpos⟩ :=
    projectFix_ok t.entities eus hndE hshproj
  refine ⟨{ entity_updates := eus, time_update := none, quest_updates := none, constraint_additions := [], player_updates := none }, ents, ?_, hproj, ?_⟩
  · rw [hfix, hbf]
  · unfold check_r2
    rw [List.filterMap_eq_nil_iff]
    intro kv hkv
    have hndE2 : (ents.items.map Prod.fst).Nodup := by rw [hkeys]; exact hnd
    have hkvl : kvLookup ents.items kv.1 = some kv.2 := by
      apply kvLookup_of_mem_nodup _ _ _ hndE2
      exact hkv
    simp only [hch, hlo]
    cases hc : kvContains eus kv.1 with
    | true =>
      obtain ⟨eu, heulk⟩ : ∃ eu, kvLookup eus kv.1 = some eu := by
        unfold kvContains at hc
        cases hl : kvLookup eus kv.1 with
        | none => rw [hl] at hc; cases hc
        | some eu => exact ⟨eu, rfl⟩
      have hmemE : (kv.1, eu) ∈ eus := kvLookup_mem _ _ _ heulk
      obtain ⟨item, o, cl, hit, how, ho, hcl, heueq⟩ := hshE (kv.1, eu) hmemE
      obtain ⟨it', hl', hl2⟩ := hpos (kv.1, eu) hmemE cl (by rw [heueq])
      rw [hit] at hl'
      obtain rfl := Option.some.inj hl'
      rw [hkvl] at hl2
      have hkv2 : kv.2 = { item with location_id := some cl } :=
        Option.some.inj hl2
      simp [r2ItemCheck, hkv2, how, ho, hcl]
    | false =>
      have hsame : kvLookup ents.items kv.1 = kvLookup t.entities.items kv.1 :=
        huntouched kv.1 hc
      have htl : kvLookup t.entities.items kv.1 = some kv.2 := by
        rw [← hsame]; exact hkvl
      cases hchk : r2ItemCheck t.entities.characters t.entities.locations kv.1 kv.2 with
      | none => rfl
      | some v =>
        exfalso
        have hvmem : v ∈ check_r2 s t evs :=
          (mem_check_r2 s t evs v).mpr ⟨(kv.1, kv.2), kvLookup_mem _ _ _ htl, hchk⟩
        rw [← hr2eq] at hvmem
        obtain ⟨o, exp, how, ho, hexp, hcond, hveq⟩ := r2ItemCheck_some _ _ _ _ _ hchk
        have hn1 : (kv.1 != "") = true := by
          refine bne_iff_ne.mpr (hnk kv.1 ?_)
          rw [← hkeys]
          exact List.mem_map.mpr ⟨kv, hkv, rfl⟩
        have hccc : kvContains eus kv.1 = true :=
          buildFixFold_covers t vs [] v kv.1 kv.2 o exp hvmem
            (by rw [hveq]) (by rw [hveq]) hn1 (by rw [hveq]; rfl) htl how ho hexp
        rw [hc] at hccc
        cases hccc

/-- Witness for c9_amended: the sword ownership-change batch is decided
AUTO_FIX and the synthesised fix patch projects to a state with no R2
violations. -/
theorem c9_amended_witness :
    ∃ fp ents, c9wResult.fixes = some fp ∧
      projectEntityUpdates c9wTemp.entities fp.entity_updates = Except.ok ents ∧
      check_r2 stateA { c9wTemp with entities := ents } [c9wEvent] = [] :=
  c9_amended stateA [c9wEvent] c9wResult c9wTemp (by decide) (by decide)
    (by decide) (by decide) (by decide)
